import Mathlib

/-!
Shallow embedding of the autonomous execution loop of the Agentic repository
(`src/core/autonomous_agent.py`) and its session store
(`src/core/project_session.py`), together with proofs settling the frozen
claims about them.

Modelling conventions:
* Python strings are Lean `String`s; character-level functions work on
  `List Char` and are wrapped at the boundary.
* JSON documents are modelled by `PyJson`: a dict of `JVal` values
  (strings, booleans, null) or one such scalar at top level —
  `json.loads` succeeds on non-dict input too, and it is the consumer
  (`tool_args.get`, `completion_info.get`) that then raises
  `AttributeError`.  JSON numbers and nested containers are outside the
  model; no claim mentions them.
* Collaborators (the OpenAI client, the terminal executor, the browser
  tester, the wall clock) are explicit parameters (`Env`, `script`).
* The file system touched by the file tools is a flat record of directory
  paths and file contents keyed by raw path strings.
* Fallible Python code is `Option`/`Except`; a Python `dict` return value
  whose key set differs between paths is a structure of `Option` fields,
  `none` meaning the key is absent.
-/

/-! ### Character and string utilities -/

/-- Models Python `str.startswith`: Boolean prefix test. -/
def pyStartsWith (s pre : String) : Bool :=
  pre.toList.isPrefixOf s.toList

/-- One scanning step of Python substring search: does `pat` occur
(contiguously) inside `l`?  Models Python's `in` operator on strings. -/
def containsSeq (pat : List Char) : List Char → Bool
  | [] => pat.isEmpty
  | c :: rest => pat.isPrefixOf (c :: rest) || containsSeq pat rest

/-- Models Python `sub in s` for strings. -/
def strContains (s sub : String) : Bool :=
  containsSeq sub.toList s.toList

/-- Worker for Python `str.replace(old, new)` on character lists: every
non-overlapping occurrence of `pat`, scanned left to right, is replaced by
`rep`.  Each step consumes at least one character, so `fuel` set to the
input length makes the fuel pattern unreachable.  Only ever used with the
nonempty pattern `"TASK_COMPLETE:"`; the empty-pattern corner of Python
`replace` is not modelled. -/
def replGo (pat rep : List Char) : Nat → List Char → List Char
  | _, [] => []
  | 0, l => l
  | fuel + 1, c :: rest =>
    if pat.isPrefixOf (c :: rest) && !pat.isEmpty then
      rep ++ replGo pat rep fuel (rest.drop (pat.length - 1))
    else
      c :: replGo pat rep fuel rest

/-- Python `str.replace` on character lists. -/
def replList (pat rep l : List Char) : List Char :=
  replGo pat rep l.length l

/-- Models Python `s.replace(old, new)`. -/
def pyReplace (s old new : String) : String :=
  ⟨replList old.toList new.toList s.toList⟩

/-! ### JSON values, serialization and parsing

The model of the stdlib collaborator `json`: `jsonDumps` follows
`json.dumps` on a dict (separators `", "` and `": "`, standard escapes;
non-ASCII pass-through — Python's default `ensure_ascii` escaping of
non-ASCII code points is omitted, it affects no claim), `jsonLoads`
follows `json.loads` on the object/string/boolean/null fragment: it
returns `some` on every successful Python parse — a dict as
`PyJson.obj`, any other top level as `PyJson.val` — and `none` only for
a raised `JSONDecodeError`.  What each consumer then does with a
non-dict value (a `.get` call raising `AttributeError`, or
`json.dumps` round-tripping it) is modeled at that consumer, not
here. -/

/-- A JSON value as consumed by the tool dispatcher.  `null` doubles as
Python `None` (e.g. the result of `dict.get` on a missing key). -/
inductive JVal
  | str (s : String)
  | bool (b : Bool)
  | null
deriving DecidableEq

/-- Python truthiness of a `JVal`. -/
def jvalTruthy : JVal → Bool
  | .str s => s ≠ ""
  | .bool b => b
  | .null => false

/-- A parsed JSON object / Python dict, in insertion order. -/
abbrev ArgMap : Type := List (String × JVal)

/-- Models Python `dict.get(k)` (returns `None` — here `JVal.null` — when
the key is absent). -/
def argGetD (m : ArgMap) (k : String) (d : JVal) : JVal :=
  match List.find? (fun p => p.1 == k) m with
  | some p => p.2
  | none => d

/-- Models Python `dict.get(k)` with the default `None`. -/
def argGet (m : ArgMap) (k : String) : JVal :=
  argGetD m k JVal.null

/-- Lowercase hex digit for `n < 16` (as emitted by Python's JSON encoder). -/
def hexChar (n : Nat) : Char :=
  if n < 10 then Char.ofNat (48 + n) else Char.ofNat (87 + n)

/-- Value of a hex digit character. -/
def hexVal (c : Char) : Option Nat :=
  if 48 ≤ c.toNat ∧ c.toNat ≤ 57 then some (c.toNat - 48)
  else if 97 ≤ c.toNat ∧ c.toNat ≤ 102 then some (c.toNat - 87)
  else if 65 ≤ c.toNat ∧ c.toNat ≤ 70 then some (c.toNat - 55)
  else none

/-- JSON string-literal escaping of one character, following Python's
encoder table: the two mandatory escapes, the five shorthand control
escapes, `\u00XX` for the remaining control characters. -/
def escChar (c : Char) : List Char :=
  if c = '"' then ['\\', '"']
  else if c = '\\' then ['\\', '\\']
  else if c = '\n' then ['\\', 'n']
  else if c = '\t' then ['\\', 't']
  else if c = '\r' then ['\\', 'r']
  else if c = '\x08' then ['\\', 'b']
  else if c = '\x0c' then ['\\', 'f']
  else if c.toNat < 32 then
    ['\\', 'u', '0', '0', hexChar (c.toNat / 16), hexChar (c.toNat % 16)]
  else [c]

/-- Escape a whole string body. -/
def escStr : List Char → List Char
  | [] => []
  | c :: r => escChar c ++ escStr r

/-- Render one JSON value. -/
def renderVal : JVal → List Char
  | .str s => '"' :: (escStr s.toList ++ ['"'])
  | .bool true => ['t', 'r', 'u', 'e']
  | .bool false => ['f', 'a', 'l', 's', 'e']
  | .null => ['n', 'u', 'l', 'l']

/-- Render one `"key": value` member. -/
def renderPair (p : String × JVal) : List Char :=
  '"' :: (escStr p.1.toList ++ ['"', ':', ' '] ++ renderVal p.2)

/-- Render the members of an object, separated by `", "`. -/
def renderMembers : List (String × JVal) → List Char
  | [] => []
  | [p] => renderPair p
  | p :: ps => renderPair p ++ [',', ' '] ++ renderMembers ps

/-- Models `json.dumps` on a dict of `JVal` values. -/
def jsonDumps (m : ArgMap) : String :=
  ⟨'{' :: (renderMembers m ++ ['}'])⟩

/-- Models `json.dumps` on a non-dict value (`json.dumps(True) = "true"`,
and so on). -/
def jsonDumpsVal (v : JVal) : String :=
  ⟨renderVal v⟩

/-- JSON whitespace test. -/
def isWsChar (c : Char) : Bool :=
  c = ' ' || c = '\t' || c = '\n' || c = '\r'

/-- Skip leading JSON whitespace. -/
def wsSkip : List Char → List Char
  | [] => []
  | c :: r => if isWsChar c then wsSkip r else c :: r

/-- Decode one simple escape character. -/
def unescSimple (e : Char) : Option Char :=
  if e = '"' then some '"'
  else if e = '\\' then some '\\'
  else if e = '/' then some '/'
  else if e = 'n' then some '\n'
  else if e = 't' then some '\t'
  else if e = 'r' then some '\r'
  else if e = 'b' then some '\x08'
  else if e = 'f' then some '\x0c'
  else none

/-- Parse a JSON string-literal body (after the opening quote) up to and
including the closing quote; returns the decoded characters and the rest
of the input. -/
def parseStrBody : List Char → Option (List Char × List Char)
  | [] => none
  | '"' :: r => some ([], r)
  | '\\' :: 'u' :: h1 :: h2 :: h3 :: h4 :: r3 =>
    match hexVal h1, hexVal h2, hexVal h3, hexVal h4 with
    | some a, some b, some c3, some d =>
      (parseStrBody r3).map
        (fun pr => (Char.ofNat (a * 4096 + b * 256 + c3 * 16 + d) :: pr.1, pr.2))
    | _, _, _, _ => none
  | '\\' :: e :: r2 =>
    match unescSimple e with
    | some ch => (parseStrBody r2).map (fun pr => (ch :: pr.1, pr.2))
    | none => none
  | c :: r => (parseStrBody r).map (fun pr => (c :: pr.1, pr.2))

/-- Parse one JSON value (string, `true`, `false` or `null`). -/
def parseVal : List Char → Option (JVal × List Char)
  | '"' :: r => (parseStrBody r).map (fun pr => (JVal.str ⟨pr.1⟩, pr.2))
  | 't' :: 'r' :: 'u' :: 'e' :: r => some (.bool true, r)
  | 'f' :: 'a' :: 'l' :: 's' :: 'e' :: r => some (.bool false, r)
  | 'n' :: 'u' :: 'l' :: 'l' :: r => some (.null, r)
  | _ => none

/-- Python-dict insertion: a repeated key keeps its original position and
takes the new value (as `json.loads` does for duplicate keys). -/
def dictInsert : ArgMap → String → JVal → ArgMap
  | [], k, v => [(k, v)]
  | p :: rest, k, v => if p.1 = k then (k, v) :: rest else p :: dictInsert rest k v

/-- Parse the members of a JSON object after the opening brace; `fuel`
bounds the number of members. -/
def parseMembersAux : Nat → ArgMap → List Char → Option (ArgMap × List Char)
  | 0, _, _ => none
  | fuel + 1, acc, l =>
    match wsSkip l with
    | '"' :: r =>
      match parseStrBody r with
      | none => none
      | some (k, r1) =>
        match wsSkip r1 with
        | ':' :: r2 =>
          match parseVal (wsSkip r2) with
          | none => none
          | some (v, r3) =>
            let acc' := dictInsert acc ⟨k⟩ v
            match wsSkip r3 with
            | ',' :: r4 => parseMembersAux fuel acc' r4
            | '}' :: r4 => some (acc', r4)
            | _ => none
        | _ => none
    | _ => none

/-- A successfully parsed JSON document: Python `json.loads` can return a
dict (`obj`) or a non-dict value (`val`) — calling `.get` on the latter
raises `AttributeError`. -/
inductive PyJson
  | obj (m : ArgMap)
  | val (v : JVal)
deriving DecidableEq

/-- Is this parsed document a dict? -/
def pyJsonIsObj : PyJson → Bool
  | .obj _ => true
  | .val _ => false

/-- Models `json.loads` over the modelled domain (objects with
string/boolean/null values, and the same scalars at top level); `none`
stands for a raised `JSONDecodeError`.  A successful non-object parse is
`PyJson.val` — that is a real Python success whose consumers may later
raise `AttributeError` on `.get`. -/
def jsonLoads (s : String) : Option PyJson :=
  match wsSkip s.toList with
  | '{' :: r =>
    match wsSkip r with
    | '}' :: r2 => if (wsSkip r2).isEmpty then some (PyJson.obj []) else none
    | _ =>
      match parseMembersAux (r.length + 1) [] r with
      | some (m, rest) => if (wsSkip rest).isEmpty then some (PyJson.obj m) else none
      | none => none
  | l =>
    match parseVal l with
    | some (v, rest) => if (wsSkip rest).isEmpty then some (PyJson.val v) else none
    | none => none

/-- The object-restricted view of `jsonLoads`: `some` exactly when Python
`json.loads` succeeds with a dict. -/
def jsonLoadsObj (s : String) : Option ArgMap :=
  match jsonLoads s with
  | some (PyJson.obj m) => some m
  | _ => none

/-! ### File-system model

The file tools call `pathlib` against the real file system; the model is a
flat record of directory paths and file contents keyed by the raw path
string, with `/`-separated components.  The empty string stands for the
current directory (Python `Path("f.txt").parent == Path(".")`). -/

structure FS where
  dirs : List String
  files : List (String × String)
deriving DecidableEq

/-- Split a character list on `'/'` (the semantics of
`str.split("/")`). -/
def splitSlash : List Char → List (List Char)
  | [] => [[]]
  | c :: rest =>
    let r := splitSlash rest
    if c = '/' then [] :: r
    else
      match r with
      | [] => [[c]]
      | h :: t => (c :: h) :: t

/-- The `/`-separated components of a path. -/
def pathComponents (p : String) : List String :=
  (splitSlash p.toList).map (fun l => ⟨l⟩)

/-- Join path components with `/`. -/
def joinSlash : List String → String
  | [] => ""
  | [x] => x
  | x :: xs => x ++ "/" ++ joinSlash xs

/-- The path and all its ancestors, outermost first
(`"a/b/c" ↦ ["a", "a/b", "a/b/c"]`). -/
def ancestorPaths (p : String) : List String :=
  let comps := pathComponents p
  (List.range comps.length).map (fun i => joinSlash (comps.take (i + 1)))

/-- Models `Path(p).parent` (up to the `"."`/`""` identification). -/
def parentPath (p : String) : String :=
  joinSlash (pathComponents p).dropLast

/-- Models `Path(p).name`: the last nonempty component. -/
def lastComp (p : String) : String :=
  (((pathComponents p).filter (fun c => c ≠ "")).getLastD "")

/-- Write (create or overwrite) a file entry. -/
def fsWrite : List (String × String) → String → String → List (String × String)
  | [], p, c => [(p, c)]
  | kv :: rest, p, c => if kv.1 = p then (p, c) :: rest else kv :: fsWrite rest p c

/-- Models `AutonomousAgent.create_directory` (body of the `try`):
`Path(p).mkdir(parents=True, exist_ok=True)` then the success string; a
path component that exists as a file makes `mkdir` raise, which the
enclosing `except` turns into an error string. -/
def createDirRes (fs : FS) (p : String) : String × FS :=
  if List.any (ancestorPaths p) (fun a => List.any fs.files (fun kv => kv.1 == a)) then
    ("Error creating directory: path component exists and is not a directory: " ++ p, fs)
  else
    ("Successfully created directory: " ++ p,
     { fs with dirs := fs.dirs ++ (ancestorPaths p).filter (fun a => !fs.dirs.contains a) })

/-- Models `AutonomousAgent.create_file` (body of the `try`):
`path.parent.mkdir(parents=True, exist_ok=True)` then `path.write_text`,
overwriting; failure paths return an error string via the `except`. -/
def createFileRes (fs : FS) (p content : String) : String × FS :=
  if fs.dirs.contains p then
    ("Error creating file: is a directory: " ++ p, fs)
  else if List.any (ancestorPaths (parentPath p)) (fun a => List.any fs.files (fun kv => kv.1 == a)) then
    ("Error creating file: parent component exists and is not a directory: " ++ p, fs)
  else
    ("Successfully created file: " ++ p,
     { dirs := fs.dirs ++ (ancestorPaths (parentPath p)).filter (fun a => !fs.dirs.contains a),
       files := fsWrite fs.files p content })

/-- Models `AutonomousAgent.read_file`: the file's content, or an error
string when `read_text` raises. -/
def readFileRes (fs : FS) (p : String) : String :=
  match List.find? (fun kv => kv.1 == p) fs.files with
  | some kv => kv.2
  | none => "Error reading file: no such file: " ++ p

/-- Models `AutonomousAgent.list_directory`: the formatted child listing,
or an error string when `iterdir` raises. -/
def listDirRes (fs : FS) (p : String) : String :=
  if fs.dirs.contains p then
    let dch := fs.dirs.filter (fun d => parentPath d == p)
    let fch := fs.files.filter (fun kv => parentPath kv.1 == p)
    "Contents of " ++ p ++ ":\n" ++
      String.join (dch.map (fun d => "  [DIR] " ++ lastComp d ++ "\n")) ++
      String.join (fch.map (fun kv => "  [FILE] " ++ lastComp kv.1 ++ "\n"))
  else "Error listing directory: no such directory: " ++ p

/-! ### External collaborators -/

/-- Outcome of one `TerminalExecutor.execute` call: either the
`(exit_code, stdout, stderr)` tuple or a raised exception's message. -/
inductive TermResult
  | ok (exitCode : Int) (stdout : String) (stderr : String)
  | exc (msg : String)
deriving DecidableEq

/-- The collaborators of one run: the command runner, the browser tester
(abstracted to the final result text `check_browser_console` would build
from its report), and the wall clock (`datetime.now()` rendered as the
strings the session store embeds). -/
structure Env where
  terminal : String → Bool → Option String → Nat → TermResult
  browser : JVal → JVal → String
  nowStamp : String

/-- Models the result formatting of `AutonomousAgent.execute_command`:
`"Exit code: …"` plus the nonempty streams, or the error string the
`except` produces. -/
def formatTermResult : TermResult → String
  | .ok e out err =>
    "Exit code: " ++ toString e ++ "\n" ++
      (if out ≠ "" then "STDOUT:\n" ++ out ++ "\n" else "") ++
      (if err ≠ "" then "STDERR:\n" ++ err ++ "\n" else "")
  | .exc m => "Error executing command: " ++ m

/-- Models `AutonomousAgent.execute_command`: timeout selection (600 s for
commands mentioning `npm`/`npx`/`install`, else 60 s), dispatch to the
terminal executor, result formatting; every failure becomes an error
string.  Non-string `command`/`cwd` values make the `try` body raise
before the subprocess runs, producing the same error-string shape. -/
def executeCommandRes (env : Env) (args : ArgMap) : String :=
  match argGet args "command" with
  | JVal.str c =>
    let timeout := if strContains c "npm" || strContains c "npx" || strContains c "install" then 600 else 60
    let useSudo := jvalTruthy (argGetD args "use_sudo" (JVal.bool false))
    match argGet args "cwd" with
    | JVal.null => formatTermResult (env.terminal c useSudo none timeout)
    | JVal.str d => formatTermResult (env.terminal c useSudo (some d) timeout)
    | JVal.bool _ => "Error executing command: invalid working directory"
  | _ => "Error executing command: command must be a string"

/-! ### The tool dispatcher -/

/-- The mutable agent state the dispatcher touches: the file system and
the per-run `files_created` / `commands_executed` logs (raw argument
values, appended before dispatch, exactly as `_execute_tool` does). -/
structure AgentState where
  fs : FS
  filesCreated : List JVal
  commandsExecuted : List JVal
deriving DecidableEq

/-- Models `AutonomousAgent._execute_tool`: logs `create_file` /
`execute_command` arguments (before dispatching, regardless of success),
then dispatches by tool name; an unrecognized name yields the
`"Unknown tool: …"` string.  Never fails. -/
def executeTool (env : Env) (name : String) (args : ArgMap) (ag0 : AgentState) : String × AgentState :=
  let ag :=
    if name = "create_file" then
      { ag0 with filesCreated := ag0.filesCreated ++ [argGet args "file_path"] }
    else if name = "execute_command" then
      { ag0 with commandsExecuted := ag0.commandsExecuted ++ [argGet args "command"] }
    else ag0
  if name = "execute_command" then
    (executeCommandRes env args, ag)
  else if name = "create_file" then
    match argGet args "file_path", argGet args "content" with
    | JVal.str p, JVal.str c =>
      let r := createFileRes ag.fs p c
      (r.1, { ag with fs := r.2 })
    | _, _ => ("Error creating file: invalid arguments", ag)
  else if name = "read_file" then
    match argGet args "file_path" with
    | JVal.str p => (readFileRes ag.fs p, ag)
    | _ => ("Error reading file: invalid arguments", ag)
  else if name = "create_directory" then
    match argGet args "directory_path" with
    | JVal.str p =>
      let r := createDirRes ag.fs p
      (r.1, { ag with fs := r.2 })
    | _ => ("Error creating directory: invalid arguments", ag)
  else if name = "list_directory" then
    match argGet args "directory_path" with
    | JVal.str p => (listDirRes ag.fs p, ag)
    | _ => ("Error listing directory: invalid arguments", ag)
  else if name = "check_browser_console" then
    (env.browser (argGet args "url") (argGetD args "wait_time" JVal.null), ag)
  else if name = "task_complete" then
    ("TASK_COMPLETE:" ++ jsonDumps args, ag)
  else
    ("Unknown tool: " ++ name, ag)

/-- `_execute_tool` on the raw parsed argument document.  A dict
dispatches through `executeTool`.  A non-dict argument value makes every
`tool_args.get` raise `AttributeError` — for `create_file` and
`execute_command` already in the pre-dispatch logging, for the other
`.get`-using tools in their dispatch arm — so those six calls raise
(`none`) before any side effect; only `task_complete` (which just
re-serializes the value) and unknown tool names run to completion. -/
def executeToolJson (env : Env) (name : String) (j : PyJson) (ag : AgentState) :
    Option (String × AgentState) :=
  match j with
  | .obj m => some (executeTool env name m ag)
  | .val v =>
    if name = "create_file" ∨ name = "execute_command" ∨ name = "read_file" ∨
        name = "create_directory" ∨ name = "list_directory" ∨
        name = "check_browser_console" then
      none
    else if name = "task_complete" then
      some ("TASK_COMPLETE:" ++ jsonDumpsVal v, ag)
    else
      some ("Unknown tool: " ++ name, ag)

/-! ### The session store (`ProjectSession`) -/

/-- One durable session record (`session_data` in `create_session`).
`files_created` / `commands_executed` hold raw logged argument values
(`JVal`, since `_execute_tool` logs whatever the model sent). -/
structure SessionData where
  session_id : String
  project_name : String
  project_path : String
  created_at : String
  updated_at : String
  initial_prompt : String
  prompts : List String
  files_created : List JVal
  commands_executed : List JVal
  status : String
  iterations : Nat
deriving DecidableEq

/-- The session directory: one record per session id. -/
abbrev SessionStore : Type := List (String × SessionData)

/-- Models `load_session` (successful read; a missing id is `none`). -/
def storeLookup (store : SessionStore) (sid : String) : Option SessionData :=
  (List.find? (fun p => p.1 == sid) store).map (fun p => p.2)

/-- Models `_save_session`: write-or-overwrite the record for `sid`. -/
def storeSave : SessionStore → String → SessionData → SessionStore
  | [], sid, d => [(sid, d)]
  | p :: rest, sid, d => if p.1 = sid then (sid, d) :: rest else p :: storeSave rest sid d

/-- Models `ProjectSession.create_session`; `now` is the rendered
`datetime.now()` of the call.  Returns the new session id and the store. -/
def createSession (store : SessionStore) (projectName projectPath initialPrompt now : String) :
    String × SessionStore :=
  let sid := projectName ++ "_" ++ now
  let d : SessionData :=
    { session_id := sid
      project_name := projectName
      project_path := projectPath
      created_at := now
      updated_at := now
      initial_prompt := initialPrompt
      prompts := [initialPrompt]
      files_created := []
      commands_executed := []
      status := "active"
      iterations := 0 }
  (sid, storeSave store sid d)

/-- Models Python `list(set(xs))`: duplicates removed.  Python's set
order is unspecified; the model fixes one order, and every claim about
the result is stated at the level of the underlying set. -/
def pySetList (xs : List JVal) : List JVal :=
  xs.dedup

/-- Models `ProjectSession.update_session`.  Each argument updates its
field only when truthy (`iterations` — like the source — only when not
`None`); a missing session id leaves the store unchanged. -/
def updateSession (store : SessionStore) (sid : String)
    (newPrompt : Option String) (filesCreated : Option (List JVal))
    (commandsExecuted : Option (List JVal)) (status : Option String)
    (iterations : Option Nat) (now : String) : SessionStore :=
  match storeLookup store sid with
  | none => store
  | some d =>
    storeSave store sid
      { d with
        updated_at := now
        prompts :=
          match newPrompt with
          | some p => if p ≠ "" then d.prompts ++ [p] else d.prompts
          | none => d.prompts
        files_created :=
          match filesCreated with
          | some l => if l ≠ [] then pySetList (d.files_created ++ l) else d.files_created
          | none => d.files_created
        commands_executed :=
          match commandsExecuted with
          | some l => if l ≠ [] then d.commands_executed ++ l else d.commands_executed
          | none => d.commands_executed
        status :=
          match status with
          | some s => if s ≠ "" then s else d.status
          | none => d.status
        iterations :=
          match iterations with
          | some n => n
          | none => d.iterations }

/-- Models `ProjectSession.get_session_context`: a rendered context block
for an existing session, `""` for a missing one.  The decorative layout of
the Python f-string is condensed; no claim examines this text. -/
def getSessionContext (store : SessionStore) (sid : String) : String :=
  match storeLookup store sid with
  | none => ""
  | some d =>
    "CONTINUING PROJECT SESSION: " ++ d.project_name ++ "\n\n" ++
      "Project Path: " ++ d.project_path ++ "\n" ++
      "Created: " ++ d.created_at ++ "\n" ++
      "Last Updated: " ++ d.updated_at ++ "\n" ++
      "Status: " ++ d.status ++ "\n" ++
      "Total Iterations: " ++ toString d.iterations ++ "\n\n" ++
      "PREVIOUS PROMPTS:\n" ++ String.join (d.prompts.map (fun p => p ++ "\n")) ++
      "FILES CREATED (" ++ toString d.files_created.length ++ ")\n" ++
      "RECENT COMMANDS (" ++ toString d.commands_executed.length ++ ")\n" ++
      "You are CONTINUING to work on this project. Remember what you've built.\n"

/-! ### Conversation turns and the completion service -/

/-- One tool call of an assistant response (`tc.id`,
`tc.function.name`, `tc.function.arguments` — the raw JSON text). -/
structure ToolCall where
  id : String
  name : String
  arguments : String
deriving DecidableEq

/-- One entry of `self.conversation_history`. -/
inductive Turn
  | system (content : String)
  | user (content : String)
  | assistant (content : Option String) (toolCalls : Option (List ToolCall))
  | tool (id : String) (content : String)
deriving DecidableEq

/-- One completion-service response: an assistant message (possibly with
tool calls), or a raised exception (auth / network / rate limit). -/
inductive ModelResponse
  | reply (content : Option String) (toolCalls : List ToolCall)
  | raise (msg : String)

/-- Python truthiness of `assistant_message.content`. -/
def contentTruthy : Option String → Bool
  | none => false
  | some s => s ≠ ""

/-- The completion sentinel prefix. -/
def sentinel : String := "TASK_COMPLETE:"

/-- The system prompt of `_get_system_prompt` (text abridged to its
opening and closing lines; no claim examines it). -/
def systemPromptText : String :=
  "You are an autonomous AI agent. You MUST use function calls to perform ALL actions.\n" ++
    "Remember: You can ONLY communicate through function calls. Start working immediately."

/-- The corrective user message injected when the model returns no tool
calls after iteration 1 (lines 513–516 of `autonomous_agent.py`). -/
def redirectText : String :=
  "❌ STOP! You MUST call the actual functions NOW. DO NOT write markdown code blocks. " ++
    "Use create_directory, create_file, execute_command functions. " ++
    "Start with: create_directory, then create_file for EACH file with FULL content (15+ files). " ++
    "NO MORE TEXT. ONLY FUNCTION CALLS."

/-- Stand-in for the message of the `json.JSONDecodeError` raised by
`json.loads(tool_call.function.arguments)`; the exact text is produced by
the stdlib and no claim examines it. -/
def argsJsonError : String := "JSONDecodeError: invalid tool arguments"

/-- Stand-in for the message of the exception raised while parsing a
sentinel result's payload at line 484. -/
def completionJsonError : String := "JSONDecodeError: invalid completion payload"

/-- Stand-in for the message of the `AttributeError` raised by
`tool_args.get` when the parsed arguments are not a dict (caught by the
iteration handler). -/
def argsAttrError : String := "AttributeError: tool arguments are not an object"

/-- Stand-in for the message of the `AttributeError` raised by
`completion_info.get` at line 536 when the captured completion payload is
not a dict — these lines sit outside any `try`, so it escapes to the
caller. -/
def completionAttrError : String :=
  "AttributeError: completion payload is not an object"

/-! ### The loop controller -/

/-- The state mutated while executing one assistant turn's tool calls. -/
structure IterState where
  history : List Turn
  ag : AgentState
  taskComplete : Bool
  completionInfo : PyJson
deriving DecidableEq

/-- Result of executing a batch of tool calls: the final state, or the
state at the point where an exception escaped to the iteration handler. -/
inductive PCRes
  | ok (st : IterState)
  | err (st : IterState) (msg : String)
deriving DecidableEq

/-- Models the `for tool_call in assistant_message.tool_calls` body (lines
469–498): parse the arguments (a `JSONDecodeError` raises out of the
whole batch, as does the `AttributeError` a non-dict argument value
triggers inside `_execute_tool`), dispatch, detect the sentinel (setting
`task_complete` and parsing the payload — possibly into a non-dict value
— before the result is appended), append the tool-result turn, continue
with the next call. -/
def processCalls (env : Env) : IterState → List ToolCall → PCRes
  | st, [] => .ok st
  | st, tc :: rest =>
    match jsonLoads tc.arguments with
    | none => .err st argsJsonError
    | some j =>
      match executeToolJson env tc.name j st.ag with
      | none => .err st argsAttrError
      | some r =>
        if pyStartsWith r.1 sentinel then
          match jsonLoads (pyReplace r.1 sentinel "") with
          | none => .err { st with ag := r.2, taskComplete := true } completionJsonError
          | some j2 =>
            processCalls env
              { history := st.history ++ [Turn.tool tc.id r.1], ag := r.2,
                taskComplete := true, completionInfo := j2 } rest
        else
          processCalls env
            { st with history := st.history ++ [Turn.tool tc.id r.1], ag := r.2 } rest

/-- The full mutable state of one `execute_autonomous_task` run. -/
structure RunState where
  hist : List Turn
  ag : AgentState
  iteration : Nat
  taskComplete : Bool
  completionInfo : PyJson
  psid : Option String
  store : SessionStore
deriving DecidableEq

/-- Result of one loop iteration. -/
inductive StepRes
  | cont (s : RunState)
  | clarify (s : RunState)
  | noTools (s : RunState)
  | err (s : RunState) (msg : String)

/-- One iteration of the `while` loop (lines 420–533): consume the next
scripted completion-service response; on an exception, stop with the
error; otherwise append the assistant turn and either execute the tool
calls, exit early on an iteration-1 clarifying question, or inject the
corrective user message. -/
def stepIter (maxIter : Nat) (env : Env) (script : Nat → ModelResponse) (s : RunState) : StepRes :=
  let i := s.iteration + 1
  match script s.iteration with
  | .raise m => .err { s with iteration := i } m
  | .reply content calls =>
    let asst := Turn.assistant content (if calls.isEmpty then none else some calls)
    let s1 := { s with iteration := i, hist := s.hist ++ [asst] }
    if calls.isEmpty then
      if i == 1 && contentTruthy content then .clarify s1
      else
        let s2 := { s1 with hist := s1.hist ++ [Turn.user redirectText] }
        if i < maxIter then .cont s2 else .noTools s2
    else
      match processCalls env
          { history := s1.hist, ag := s1.ag, taskComplete := s1.taskComplete,
            completionInfo := s1.completionInfo } calls with
      | .ok st =>
        .cont { s1 with hist := st.history, ag := st.ag, taskComplete := st.taskComplete,
                        completionInfo := st.completionInfo }
      | .err st m =>
        .err { s1 with hist := st.history, ag := st.ag, taskComplete := st.taskComplete,
                       completionInfo := st.completionInfo } m

/-- The state carried by a step result. -/
def stepState : StepRes → RunState
  | .cont s => s
  | .clarify s => s
  | .noTools s => s
  | .err s _ => s

/-- How the `while` loop was left. -/
inductive LoopExit
  | normal
  | clarify
  | noTools
  | errorStop (msg : String)
deriving DecidableEq

/-- The `while iteration < self.max_iterations and not task_complete`
loop; `fuel` is `max_iterations - iteration`, so the guard's first
conjunct is `fuel > 0`. -/
def loopGo (maxIter : Nat) (env : Env) (script : Nat → ModelResponse) :
    Nat → RunState → RunState × LoopExit
  | 0, s => (s, .normal)
  | fuel + 1, s =>
    if s.taskComplete then (s, .normal)
    else
      match stepIter maxIter env script s with
      | .cont s' => loopGo maxIter env script fuel s'
      | .clarify s' => (s', .clarify)
      | .noTools s' => (s', .noTools)
      | .err s' m => (s', .errorStop m)

/-! ### Run outcome and finalization -/

/-- The dict returned by `execute_autonomous_task`.  A `none` in an
`Option`-wrapped field means the corresponding key is absent from the
returned dict (the two return sites build different key sets). -/
structure RunOutcome where
  success : Bool
  summary : Option JVal
  project_path : Option JVal
  iterations : Nat
  max_iterations_reached : Option Bool
  session_id : Option (Option String)
  files_created : Option Nat
  commands_executed : Option Nat
  error : Option String
deriving DecidableEq

/-- The dict built by the `except` handler (lines 528–533): only
`success`, `error`, `iterations` and `session_id`. -/
def mkErrorOutcome (s : RunState) (msg : String) : RunOutcome :=
  { success := false
    summary := none
    project_path := none
    iterations := s.iteration
    max_iterations_reached := none
    session_id := some s.psid
    files_created := none
    commands_executed := none
    error := some msg }

/-- The dict built after the loop (lines 556–565): all fields except
`error`.  `ci` is the completion-payload dict the `.get` calls of lines
558–559 read (the loop seeds it as `{}`). -/
def mkNormalOutcome (maxIter : Nat) (s : RunState) (psid : Option String) (ci : ArgMap) :
    RunOutcome :=
  { success := s.taskComplete
    summary := some (argGetD ci "summary" (JVal.str "Task completed"))
    project_path := some (argGet ci "project_path")
    iterations := s.iteration
    max_iterations_reached := some (decide (s.iteration ≥ maxIter))
    session_id := some psid
    files_created := some s.ag.filesCreated.length
    commands_executed := some s.ag.commandsExecuted.length
    error := none }

/-- Python truthiness of `self.project_session_id`. -/
def psidTruthy : Option String → Bool
  | none => false
  | some s => s ≠ ""

/-- The session bookkeeping of lines 536–553, entered with the completed
run's string project path `p`: `if not self.project_session_id:` —
truthiness, so a `None` or empty-string id — creates a fresh session,
then the attached session is updated.  Returns the attached session id
and the store. -/
def sessionSaveStep (env : Env) (task : String) (s : RunState) (p : String) :
    Option String × SessionStore :=
  let created :=
    if psidTruthy s.psid then (s.psid.getD "", s.store)
    else createSession s.store (lastComp p) p task env.nowStamp
  (some created.1,
   updateSession created.2 created.1 none (some s.ag.filesCreated)
     (some s.ag.commandsExecuted)
     (some (if s.taskComplete then "complete" else "in_progress"))
     (some s.iteration) env.nowStamp)

/-- Everything after the `while` loop: the `except` handler's early
return, the session bookkeeping, and the final result dict.  The two
`.error` cases model exceptions these lines — outside any `try` — raise
past the loop boundary: `completion_info.get` at line 536 (or lines
558–559) raises `AttributeError` when the captured payload is not a
dict (the `and` short-circuit means line 536 only evaluates `.get` when
`task_complete` is set), and `Path(completion_info["project_path"])`
raises `TypeError` when the payload's `project_path` is truthy but not a
string. -/
def finalizeRun (maxIter : Nat) (env : Env) (task : String) (sx : RunState × LoopExit) :
    Except String RunOutcome :=
  match sx.2 with
  | .errorStop m => .ok (mkErrorOutcome sx.1 m)
  | _ =>
    let s := sx.1
    if s.taskComplete then
      match s.completionInfo with
      | PyJson.val _ => .error completionAttrError
      | PyJson.obj ci =>
        if jvalTruthy (argGet ci "project_path") then
          match argGet ci "project_path" with
          | JVal.str p => .ok (mkNormalOutcome maxIter s (sessionSaveStep env task s p).1 ci)
          | _ => .error "TypeError: argument should be a str or an os.PathLike object"
        else .ok (mkNormalOutcome maxIter s s.psid ci)
    else
      match s.completionInfo with
      | PyJson.val _ => .error completionAttrError
      | PyJson.obj ci => .ok (mkNormalOutcome maxIter s s.psid ci)

/-- The state seeded before the loop (lines 399–418): optional session
context appended to the system prompt, history `[system, user(task)]`,
fresh counters. -/
def initialRunState (task : String) (continueSession : Bool) (psid0 : Option String)
    (store0 : SessionStore) (fs0 : FS) : RunState :=
  let ctx := if continueSession && psidTruthy psid0 then getSessionContext store0 (psid0.getD "") else ""
  let sysContent := if ctx ≠ "" then systemPromptText ++ "\n\n" ++ ctx else systemPromptText
  { hist := [Turn.system sysContent, Turn.user task]
    ag := { fs := fs0, filesCreated := [], commandsExecuted := [] }
    iteration := 0
    taskComplete := false
    completionInfo := PyJson.obj []
    psid := psid0
    store := store0 }

/-- The whole loop of one run: final state and exit kind. -/
def runAgentLoop (maxIter : Nat) (env : Env) (script : Nat → ModelResponse) (task : String)
    (continueSession : Bool) (psid0 : Option String) (store0 : SessionStore) (fs0 : FS) :
    RunState × LoopExit :=
  loopGo maxIter env script maxIter (initialRunState task continueSession psid0 store0 fs0)

/-- Models `AutonomousAgent.execute_autonomous_task` end to end:
`Except.ok` is the returned dict, `Except.error` an exception escaping to
the caller. -/
def executeAutonomousTask (maxIter : Nat) (env : Env) (script : Nat → ModelResponse)
    (task : String) (continueSession : Bool) (psid0 : Option String)
    (store0 : SessionStore) (fs0 : FS) : Except String RunOutcome :=
  finalizeRun maxIter env task (runAgentLoop maxIter env script task continueSession psid0 store0 fs0)

/-- A concrete environment for the closed instances below: a terminal
whose commands all succeed silently, a browser reporting no errors, and a
fixed clock. -/
def sampleEnv : Env :=
  { terminal := fun _ _ _ _ => TermResult.ok 0 "" ""
    browser := fun _ _ => "Browser OK"
    nowStamp := "20260101_000000" }

/-- Does this turn record a tool result carrying the completion
sentinel? -/
def turnHasSentinel : Turn → Bool
  | .tool _ c => pyStartsWith c sentinel
  | _ => false

/-- Does the history contain a sentinel-bearing tool result? -/
def histHasSentinel (h : List Turn) : Bool :=
  h.any turnHasSentinel

/-- Is this turn a tool-result turn for call id `i`? -/
def isToolTurnFor (i : String) : Turn → Bool
  | .tool j _ => j == i
  | _ => false

/-! ## Lemmas: session store -/

theorem storeLookup_save_self (store : SessionStore) (sid : String) (d : SessionData) :
    storeLookup (storeSave store sid d) sid = some d := by
  induction store with
  | nil => simp [storeSave, storeLookup]
  | cons p rest ih =>
    by_cases h : p.1 = sid
    · simp [storeSave, h, storeLookup]
    · simpa [storeSave, h, storeLookup, List.find?_cons] using ih

theorem updateSession_lookup (store : SessionStore) (sid : String)
    (np : Option String) (fc cm : Option (List JVal)) (stt : Option String)
    (it : Option Nat) (now : String) (d : SessionData)
    (h : storeLookup store sid = some d) :
    storeLookup (updateSession store sid np fc cm stt it now) sid = some
      { d with
        updated_at := now
        prompts :=
          match np with
          | some p => if p ≠ "" then d.prompts ++ [p] else d.prompts
          | none => d.prompts
        files_created :=
          match fc with
          | some l => if l ≠ [] then pySetList (d.files_created ++ l) else d.files_created
          | none => d.files_created
        commands_executed :=
          match cm with
          | some l => if l ≠ [] then d.commands_executed ++ l else d.commands_executed
          | none => d.commands_executed
        status :=
          match stt with
          | some s => if s ≠ "" then s else d.status
          | none => d.status
        iterations :=
          match it with
          | some n => n
          | none => d.iterations } := by
  unfold updateSession
  rw [h]
  exact storeLookup_save_self ..

theorem list_toFinset_dedup (l : List JVal) : l.dedup.toFinset = l.toFinset := by
  ext x
  simp [List.mem_dedup]

/-- C7: a partial `update_session` never clobbers unrelated fields — for
an existing session, every stored field for which no new value is
supplied (other than `updated_at`) holds the same value after the update
as before it. -/
theorem C7_update_frame (store : SessionStore) (sid : String) (d : SessionData)
    (np : Option String) (fc cm : Option (List JVal)) (stt : Option String)
    (it : Option Nat) (now : String)
    (h : storeLookup store sid = some d) :
    ∃ d', storeLookup (updateSession store sid np fc cm stt it now) sid = some d' ∧
      d'.session_id = d.session_id ∧
      d'.project_name = d.project_name ∧
      d'.project_path = d.project_path ∧
      d'.created_at = d.created_at ∧
      d'.initial_prompt = d.initial_prompt ∧
      (np = none → d'.prompts = d.prompts) ∧
      (fc = none → d'.files_created = d.files_created) ∧
      (cm = none → d'.commands_executed = d.commands_executed) ∧
      (stt = none → d'.status = d.status) ∧
      (it = none → d'.iterations = d.iterations) := by
  refine ⟨_, updateSession_lookup store sid np fc cm stt it now d h,
    rfl, rfl, rfl, rfl, rfl, ?_, ?_, ?_, ?_, ?_⟩ <;> (rintro rfl; rfl)

theorem C7_witness :
    ∃ d', storeLookup (updateSession (createSession [] "proj" "path/proj" "build" "t0").2
        "proj_t0" none none none (some "failed") none "t1") "proj_t0" = some d' ∧
      d'.session_id = "proj_t0" ∧ d'.prompts = ["build"] ∧ d'.iterations = 0 := by
  obtain ⟨d', hl, h1, h2, h3, h4, h5, h6, h7, h8, h9, h10⟩ :=
    C7_update_frame (createSession [] "proj" "path/proj" "build" "t0").2 "proj_t0"
      { session_id := "proj_t0", project_name := "proj", project_path := "path/proj",
        created_at := "t0", updated_at := "t0", initial_prompt := "build",
        prompts := ["build"], files_created := [], commands_executed := [],
        status := "active", iterations := 0 }
      none none none (some "failed") none "t1" (by decide)
  refine ⟨d', hl, ?_, ?_, ?_⟩
  · simpa using h1
  · simpa using h6 rfl
  · simpa using h10 rfl

/-- C6 (amended): `update_session` merges supplied file lists as a set
union with no duplicate entries (stated at the level of the underlying
set, since Python's `list(set(…))` order is unspecified), and the stored
prompts list grows by one exactly when a supplied prompt is non-empty —
an empty prompt argument is ignored by the `if new_prompt:` truthiness
test. -/
theorem C6_session_update (store : SessionStore) (sid : String) (d : SessionData)
    (np : Option String) (fc cm : Option (List JVal)) (stt : Option String)
    (it : Option Nat) (now : String)
    (h : storeLookup store sid = some d) :
    ∃ d', storeLookup (updateSession store sid np fc cm stt it now) sid = some d' ∧
      d'.prompts.length = d.prompts.length +
        (match np with
         | some p => if p ≠ "" then 1 else 0
         | none => 0) ∧
      d'.files_created.toFinset = d.files_created.toFinset ∪ (fc.getD []).toFinset ∧
      (∀ l, fc = some l → l ≠ [] → d'.files_created.Nodup) := by
  refine ⟨_, updateSession_lookup store sid np fc cm stt it now d h, ?_, ?_, ?_⟩
  · cases np with
    | none => simp
    | some p => by_cases hp : p = "" <;> simp [hp]
  · cases fc with
    | none => simp
    | some l =>
      by_cases hl : l = []
      · simp [hl]
      · simp [hl, pySetList, list_toFinset_dedup]
  · intro l hfc hl
    subst hfc
    simp [hl, pySetList, List.nodup_dedup]

theorem C6_counterexample :
    (some "" : Option String) ≠ none ∧
    (storeLookup (createSession [] "proj" "path/proj" "build it" "t0").2 "proj_t0").map
      (fun d => d.prompts.length) = some 1 ∧
    (storeLookup (updateSession (createSession [] "proj" "path/proj" "build it" "t0").2
        "proj_t0" (some "") none none none none "t1") "proj_t0").map
      (fun d => d.prompts.length) = some 1 := by
  refine ⟨by decide, by decide, by decide⟩

theorem C6_witness :
    ∃ d', storeLookup
        (updateSession
          (updateSession (createSession [] "proj" "p/proj" "build" "t0").2
            "proj_t0" none (some [JVal.str "a.txt", JVal.str "b.txt"]) none none none "t1")
          "proj_t0" none (some [JVal.str "b.txt", JVal.str "c.txt"]) none none none "t2")
        "proj_t0" = some d' ∧
      d'.files_created.toFinset = {JVal.str "a.txt", JVal.str "b.txt", JVal.str "c.txt"} ∧
      d'.files_created.Nodup ∧ d'.prompts.length = 1 := by
  obtain ⟨d1, hl1, hp1, hf1, hn1⟩ :=
    C6_session_update (createSession [] "proj" "p/proj" "build" "t0").2 "proj_t0"
      { session_id := "proj_t0", project_name := "proj", project_path := "p/proj",
        created_at := "t0", updated_at := "t0", initial_prompt := "build",
        prompts := ["build"], files_created := [], commands_executed := [],
        status := "active", iterations := 0 }
      none (some [JVal.str "a.txt", JVal.str "b.txt"]) none none none "t1" (by decide)
  obtain ⟨d2, hl2, hp2, hf2, hn2⟩ :=
    C6_session_update _ "proj_t0" d1
      none (some [JVal.str "b.txt", JVal.str "c.txt"]) none none none "t2" hl1
  refine ⟨d2, hl2, ?_, hn2 _ rfl (by decide), ?_⟩
  · rw [hf2, hf1]
    decide
  · simp at hp1 hp2
    omega

/-! ## Lemmas: JSON round-trip -/

theorem hexVal_hexChar (d : Nat) (h : d < 16) : hexVal (hexChar d) = some d := by
  interval_cases d <;> decide

theorem charOfNat_toNat (c : Char) (h : c.toNat < 55296) : Char.ofNat c.toNat = c := by
  have hv : Nat.isValidChar c.toNat := Or.inl h
  have hs : UInt32.size = 4294967296 := rfl
  have hbv : c.val.toBitVec.toNat = c.val.toNat := rfl
  unfold Char.ofNat
  rw [dif_pos hv]
  apply Char.eq_of_val_eq
  simp only [Char.ofNatAux]
  apply UInt32.eq_of_toBitVec_eq
  apply BitVec.eq_of_toNat_eq
  have hlt : c.toNat < UInt32.size := by
    have := c.val.toNat_lt
    simp only [Char.toNat]
    omega
  simp [UInt32.ofNat', Char.toNat]
  omega

theorem parseStrBody_escStr (s : List Char) (rest : List Char) :
    parseStrBody (escStr s ++ '"' :: rest) = some (s, rest) := by
  induction s with
  | nil => simp [escStr, parseStrBody]
  | cons c s ih =>
    show parseStrBody (escChar c ++ escStr s ++ '"' :: rest) = _
    by_cases h1 : c = '"'
    · subst h1; simp [escChar, parseStrBody, unescSimple, ih]
    by_cases h2 : c = '\\'
    · subst h2; simp [escChar, parseStrBody, unescSimple, ih]
    by_cases h3 : c = '\n'
    · subst h3; simp [escChar, parseStrBody, unescSimple, ih]
    by_cases h4 : c = '\t'
    · subst h4; simp [escChar, parseStrBody, unescSimple, ih]
    by_cases h5 : c = '\r'
    · subst h5; simp [escChar, parseStrBody, unescSimple, ih]
    by_cases h6 : c = '\x08'
    · subst h6; simp [escChar, parseStrBody, unescSimple, ih]
    by_cases h7 : c = '\x0c'
    · subst h7; simp [escChar, parseStrBody, unescSimple, ih]
    by_cases h8 : c.toNat < 32
    · have e1 : hexVal (hexChar (c.toNat / 16)) = some (c.toNat / 16) :=
        hexVal_hexChar _ (by omega)
      have e2 : hexVal (hexChar (c.toNat % 16)) = some (c.toNat % 16) :=
        hexVal_hexChar _ (by omega)
      have ec : escChar c =
          ['\\', 'u', '0', '0', hexChar (c.toNat / 16), hexChar (c.toNat % 16)] := by
        simp [escChar, h1, h2, h3, h4, h5, h6, h7, h8]
      rw [ec]
      show parseStrBody ('\\' :: 'u' :: '0' :: '0' :: hexChar (c.toNat / 16) ::
        hexChar (c.toNat % 16) :: (escStr s ++ '"' :: rest)) = _
      have hz : hexVal '0' = some 0 := by decide
      simp only [parseStrBody, hz, e1, e2, ih, Option.map_some]
      have hval : 0 * 4096 + 0 * 256 + c.toNat / 16 * 16 + c.toNat % 16 = c.toNat := by
        omega
      rw [hval, charOfNat_toNat c (by omega)]
      rfl
    · have ec : escChar c = [c] := by
        simp [escChar, h1, h2, h3, h4, h5, h6, h7, h8]
      rw [ec]
      show parseStrBody (c :: (escStr s ++ '"' :: rest)) = _
      simp [parseStrBody, h1, h2, ih]

theorem string_mk_toList (s : String) : String.mk s.toList = s := by
  cases s; rfl

theorem parseVal_renderVal (v : JVal) (rest : List Char) :
    parseVal (renderVal v ++ rest) = some (v, rest) := by
  cases v with
  | str s =>
    show parseVal ('"' :: (escStr s.toList ++ ['"']) ++ rest) = _
    have : (escStr s.toList ++ ['"']) ++ rest = escStr s.toList ++ '"' :: rest := by
      simp
    rw [List.cons_append, this]
    simp [parseVal, parseStrBody_escStr, string_mk_toList]
  | bool b => cases b <;> rfl
  | null => rfl

theorem wsSkip_not_ws (c : Char) (l : List Char) (h : isWsChar c = false) :
    wsSkip (c :: l) = c :: l := by
  simp [wsSkip, h]

theorem renderVal_head_not_ws (v : JVal) (tail : List Char) :
    wsSkip (renderVal v ++ tail) = renderVal v ++ tail := by
  cases v with
  | str s => exact wsSkip_not_ws _ _ (by decide)
  | bool b => cases b <;> exact wsSkip_not_ws _ _ (by decide)
  | null => exact wsSkip_not_ws _ _ (by decide)

theorem dictInsert_fresh (m : ArgMap) (k : String) (v : JVal) (h : ∀ p ∈ m, p.1 ≠ k) :
    dictInsert m k v = m ++ [(k, v)] := by
  induction m with
  | nil => rfl
  | cons p rest ih =>
    have hp : p.1 ≠ k := h p (by simp)
    simp [dictInsert, hp, ih (fun q hq => h q (by simp [hq]))]

theorem parseMembersAux_skip_ws (fuel : Nat) (acc : ArgMap) (c : Char) (l : List Char)
    (hc : isWsChar c = true) :
    parseMembersAux fuel acc (c :: l) = parseMembersAux fuel acc l := by
  cases fuel with
  | zero => rfl
  | succ fuel =>
    have hw : wsSkip (c :: l) = wsSkip l := by simp [wsSkip, hc]
    simp only [parseMembersAux, hw]

theorem parseMembersAux_render (m : ArgMap) (acc : ArgMap) (fuel : Nat) (rest : List Char)
    (hm : m ≠ []) (hf : m.length ≤ fuel)
    (hfresh : ∀ p ∈ m, ∀ q ∈ acc, q.1 ≠ p.1)
    (hnodup : (m.map Prod.fst).Nodup) :
    parseMembersAux fuel acc (renderMembers m ++ '}' :: rest) = some (acc ++ m, rest) := by
  induction m generalizing acc fuel with
  | nil => exact absurd rfl hm
  | cons p ms ih =>
    cases fuel with
    | zero => simp at hf
    | succ fuel =>
      have hq : ∀ X : List Char, wsSkip ('"' :: X) = '"' :: X :=
        fun X => wsSkip_not_ws _ _ (by decide)
      have hcolon : ∀ X : List Char, wsSkip (':' :: X) = ':' :: X :=
        fun X => wsSkip_not_ws _ _ (by decide)
      have hsp : ∀ X : List Char, wsSkip (' ' :: X) = wsSkip X :=
        fun X => by simp [wsSkip, isWsChar]
      have hbrace : ∀ X : List Char, wsSkip ('}' :: X) = '}' :: X :=
        fun X => wsSkip_not_ws _ _ (by decide)
      have hcomma : ∀ X : List Char, wsSkip (',' :: X) = ',' :: X :=
        fun X => wsSkip_not_ws _ _ (by decide)
      have hdi : dictInsert acc (String.mk p.1.toList) p.2 = acc ++ [p] := by
        rw [string_mk_toList]
        rw [dictInsert_fresh acc p.1 p.2 (fun q hqin => hfresh p (by simp) q hqin)]
      cases ms with
      | nil =>
        have hshape : renderMembers [p] ++ '}' :: rest =
            '"' :: (escStr p.1.toList ++ '"' :: ':' :: ' ' :: (renderVal p.2 ++ '}' :: rest)) := by
          simp [renderMembers, renderPair]
        rw [hshape]
        simp only [parseMembersAux, hq, parseStrBody_escStr, hcolon, hsp,
          renderVal_head_not_ws, parseVal_renderVal, hbrace, hdi]
      | cons q ms2 =>
        have hshape : renderMembers (p :: q :: ms2) ++ '}' :: rest =
            '"' :: (escStr p.1.toList ++ '"' :: ':' :: ' ' :: (renderVal p.2 ++
              ',' :: ' ' :: (renderMembers (q :: ms2) ++ '}' :: rest))) := by
          simp [renderMembers, renderPair]
        rw [hshape]
        have hrec : parseMembersAux fuel (acc ++ [p]) (' ' :: (renderMembers (q :: ms2) ++ '}' :: rest)) =
            some (acc ++ p :: q :: ms2, rest) := by
          rw [parseMembersAux_skip_ws fuel (acc ++ [p]) ' ' _ (by decide)]
          have hp_notin : p.1 ∉ List.map Prod.fst (q :: ms2) := by
            simp only [List.map_cons, List.nodup_cons] at hnodup
            simpa using hnodup.1
          have := ih (acc ++ [p]) fuel (by simp) (by simp at hf ⊢; omega)
            (fun r hr q2 hq2 => by
              rcases List.mem_append.mp hq2 with h | h
              · exact hfresh r (List.mem_cons_of_mem p hr) q2 h
              · have hq2p : q2 = p := by simpa using h
                subst hq2p
                intro hcontra
                exact hp_notin (by
                  rw [hcontra]
                  exact List.mem_map_of_mem Prod.fst hr))
            (by
              simp only [List.map_cons, List.nodup_cons] at hnodup
              simpa using hnodup.2)
          simpa using this
        simp only [parseMembersAux, hq, parseStrBody_escStr, hcolon, hsp,
          renderVal_head_not_ws, parseVal_renderVal, hcomma, hdi, hrec]

theorem renderMembers_length (m : ArgMap) : m.length ≤ (renderMembers m).length := by
  induction m with
  | nil => simp [renderMembers]
  | cons p ms ih =>
    cases ms with
    | nil => simp [renderMembers, renderPair]
    | cons q ms2 =>
      have : renderMembers (p :: q :: ms2) = renderPair p ++ [',', ' '] ++ renderMembers (q :: ms2) := by
        simp [renderMembers]
      rw [this]
      simp only [List.length_append, List.length_cons]
      simp at ih ⊢
      omega

/-- Round-trip of the sentinel payload encoding: `json.loads` inverts
`json.dumps` on any dict with distinct keys. -/
theorem jsonLoads_dumps (m : ArgMap) (h : (m.map Prod.fst).Nodup) :
    jsonLoads (jsonDumps m) = some (PyJson.obj m) := by
  cases m with
  | nil => rfl
  | cons p ms =>
    have htl : (jsonDumps (p :: ms)).toList = '{' :: (renderMembers (p :: ms) ++ '}' :: []) := by
      simp [jsonDumps]
    have hbrace : wsSkip ('{' :: (renderMembers (p :: ms) ++ '}' :: [])) =
        '{' :: (renderMembers (p :: ms) ++ '}' :: []) := wsSkip_not_ws _ _ (by decide)
    have hfirst : ∃ X, renderMembers (p :: ms) ++ '}' :: [] = '"' :: X := by
      cases ms with
      | nil =>
        exact ⟨escStr p.1.toList ++ '"' :: ':' :: ' ' :: (renderVal p.2 ++ '}' :: []),
          by simp [renderMembers, renderPair]⟩
      | cons q ms2 =>
        exact ⟨escStr p.1.toList ++ '"' :: ':' :: ' ' :: (renderVal p.2 ++
          ',' :: ' ' :: (renderMembers (q :: ms2) ++ '}' :: [])),
          by simp [renderMembers, renderPair]⟩
    obtain ⟨X, hX⟩ := hfirst
    have hrml := renderMembers_length (p :: ms)
    have hmain := parseMembersAux_render (p :: ms) []
      ((renderMembers (p :: ms) ++ '}' :: []).length + 1) [] (by simp)
      (by simp only [List.length_append, List.length_cons] at hrml ⊢; omega) (by simp) h
    unfold jsonLoads
    rw [htl, hbrace, hX]
    have hq : wsSkip ('"' :: X) = '"' :: X := wsSkip_not_ws _ _ (by decide)
    simp only [hq]
    rw [← hX]
    simp only [hmain]
    rw [hX]
    simp [wsSkip]

/-- The object-level view of the round trip. -/
theorem jsonLoadsObj_dumps (m : ArgMap) (h : (m.map Prod.fst).Nodup) :
    jsonLoadsObj (jsonDumps m) = some m := by
  rw [jsonLoadsObj, jsonLoads_dumps m h]

/-- `jsonLoadsObj` succeeding is exactly `jsonLoads` succeeding with a
dict. -/
theorem jsonLoadsObj_eq_some (s : String) (m : ArgMap)
    (h : jsonLoadsObj s = some m) : jsonLoads s = some (PyJson.obj m) := by
  unfold jsonLoadsObj at h
  cases hj : jsonLoads s with
  | none => rw [hj] at h; cases h
  | some j =>
    cases j with
    | obj m2 =>
      rw [hj] at h
      simp at h
      rw [h]
    | val v => rw [hj] at h; cases h

/-! ## Lemmas: Python string replace -/

theorem string_toList_append (s t : String) : (s ++ t).toList = s.toList ++ t.toList := by
  cases s; cases t; rfl

theorem isPrefixOf_append_self (p s : List Char) : p.isPrefixOf (p ++ s) = true := by
  induction p with
  | nil => simp
  | cons c p ih => simpa [List.isPrefixOf] using ih

theorem replGo_no_occur (pat rep : List Char) (fuel : Nat) (s : List Char)
    (hfuel : s.length ≤ fuel) (h : containsSeq pat s = false) :
    replGo pat rep fuel s = s := by
  induction fuel generalizing s with
  | zero =>
    cases s with
    | nil => rfl
    | cons c rest => simp at hfuel
  | succ fuel ih =>
    cases s with
    | nil => rfl
    | cons c rest =>
      simp only [containsSeq, Bool.or_eq_false_iff] at h
      simp only [replGo, h.1, Bool.false_and, Bool.false_eq_true, if_false]
      rw [ih rest (by simp at hfuel; omega) h.2]

theorem replList_strip (pat s : List Char) (hpat : pat ≠ [])
    (h : containsSeq pat s = false) :
    replList pat [] (pat ++ s) = s := by
  cases pat with
  | nil => exact absurd rfl hpat
  | cons c pt =>
    show replGo (c :: pt) [] ((c :: pt) ++ s).length ((c :: pt) ++ s) = s
    have hlen : ((c :: pt) ++ s).length = (pt.length + s.length) + 1 := by
      simp
    rw [hlen]
    have hpre : (c :: pt).isPrefixOf (c :: (pt ++ s)) = true := by
      have := isPrefixOf_append_self (c :: pt) s
      simpa using this
    have hstep : replGo (c :: pt) [] (pt.length + s.length + 1) (c :: (pt ++ s)) =
        if (c :: pt).isPrefixOf (c :: (pt ++ s)) && !(c :: pt).isEmpty then
          [] ++ replGo (c :: pt) [] (pt.length + s.length) ((pt ++ s).drop ((c :: pt).length - 1))
        else c :: replGo (c :: pt) [] (pt.length + s.length) (pt ++ s) := rfl
    show replGo (c :: pt) [] (pt.length + s.length + 1) (c :: (pt ++ s)) = s
    rw [hstep, hpre]
    simp only [List.isEmpty_cons, Bool.not_false, Bool.and_self, if_true, List.nil_append]
    have hdrop : (pt ++ s).drop ((c :: pt).length - 1) = s := by
      simp only [List.length_cons, Nat.add_sub_cancel]
      exact List.drop_left pt s
    rw [hdrop]
    exact replGo_no_occur _ _ _ _ (by omega) h

/-- C10 (amended): for every `task_complete` argument map with distinct
keys whose JSON serialization contains the sentinel substring nowhere —
keys included, because the controller strips every occurrence of
`"TASK_COMPLETE:"`, not only the leading one — the dispatcher result is
exactly the sentinel followed by that JSON and the payload the controller
parses equals the original map. -/
theorem C10_sentinel_roundtrip (env : Env) (args : ArgMap) (ag : AgentState)
    (hnodup : (args.map Prod.fst).Nodup)
    (hfree : strContains (jsonDumps args) "TASK_COMPLETE:" = false) :
    (executeTool env "task_complete" args ag).1 = "TASK_COMPLETE:" ++ jsonDumps args ∧
    jsonLoadsObj (pyReplace (executeTool env "task_complete" args ag).1 "TASK_COMPLETE:" "") =
      some args := by
  have hres : (executeTool env "task_complete" args ag).1 = "TASK_COMPLETE:" ++ jsonDumps args := rfl
  refine ⟨hres, ?_⟩
  rw [hres]
  have hrepl : pyReplace ("TASK_COMPLETE:" ++ jsonDumps args) "TASK_COMPLETE:" "" =
      jsonDumps args := by
    unfold pyReplace
    rw [string_toList_append]
    rw [show ("" : String).toList = [] from rfl]
    rw [replList_strip _ _ (by decide) hfree]
    exact string_mk_toList _
  rw [hrepl]
  exact jsonLoadsObj_dumps args hnodup

theorem C10_witness :
    ((([("summary", JVal.str "done"), ("project_path", JVal.str "proj")] : ArgMap).map
        Prod.fst).Nodup ∧
      strContains (jsonDumps [("summary", JVal.str "done"), ("project_path", JVal.str "proj")])
        "TASK_COMPLETE:" = false) ∧
    (executeTool ⟨fun _ _ _ _ => TermResult.ok 0 "" "", fun _ _ => "", ""⟩ "task_complete"
        [("summary", JVal.str "done"), ("project_path", JVal.str "proj")] ⟨⟨[], []⟩, [], []⟩).1 =
      "TASK_COMPLETE:" ++ jsonDumps [("summary", JVal.str "done"), ("project_path", JVal.str "proj")] ∧
    jsonLoadsObj (pyReplace (executeTool ⟨fun _ _ _ _ => TermResult.ok 0 "" "", fun _ _ => "", ""⟩
        "task_complete" [("summary", JVal.str "done"), ("project_path", JVal.str "proj")]
        ⟨⟨[], []⟩, [], []⟩).1 "TASK_COMPLETE:" "") =
      some [("summary", JVal.str "done"), ("project_path", JVal.str "proj")] := by
  refine ⟨⟨by decide, by decide⟩, C10_sentinel_roundtrip _ _ _ (by decide) (by decide)⟩

theorem C10_counterexample :
    strContains "y" "TASK_COMPLETE:" = false ∧
    (executeTool ⟨fun _ _ _ _ => TermResult.ok 0 "" "", fun _ _ => "", ""⟩ "task_complete"
        [("TASK_COMPLETE:x", JVal.str "y")] ⟨⟨[], []⟩, [], []⟩).1 =
      "TASK_COMPLETE:" ++ jsonDumps [("TASK_COMPLETE:x", JVal.str "y")] ∧
    jsonLoadsObj (pyReplace (executeTool ⟨fun _ _ _ _ => TermResult.ok 0 "" "", fun _ _ => "", ""⟩
        "task_complete" [("TASK_COMPLETE:x", JVal.str "y")] ⟨⟨[], []⟩, [], []⟩).1
        "TASK_COMPLETE:" "") = some [("x", JVal.str "y")] ∧
    some [("x", JVal.str "y")] ≠ some [("TASK_COMPLETE:x", JVal.str "y")] := by
  exact ⟨by decide, rfl, by decide, by decide⟩

/-! ## Lemmas: the tool dispatcher and the loop -/

theorem unknown_not_sentinel (name : String) :
    pyStartsWith ("Unknown tool: " ++ name) sentinel = false := by
  rw [pyStartsWith, string_toList_append]
  rfl

/-- C8: a tool call with an unrecognized name makes the dispatcher
return the `"Unknown tool: …"` error string — no exception — the string
is appended to the conversation as this call's tool-result turn, and the
batch continues with the next call. -/
theorem C8_unknown_tool (env : Env) (name : String) (args : ArgMap) (ag : AgentState)
    (h1 : name ≠ "execute_command") (h2 : name ≠ "create_file") (h3 : name ≠ "read_file")
    (h4 : name ≠ "create_directory") (h5 : name ≠ "list_directory")
    (h6 : name ≠ "check_browser_console") (h7 : name ≠ "task_complete") :
    executeTool env name args ag = ("Unknown tool: " ++ name, ag) ∧
    ∀ (st : IterState) (tc : ToolCall) (rest : List ToolCall),
      tc.name = name → jsonLoadsObj tc.arguments = some args → st.ag = ag →
      processCalls env st (tc :: rest) =
        processCalls env
          { st with history := st.history ++ [Turn.tool tc.id ("Unknown tool: " ++ name)] } rest := by
  have hex : executeTool env name args ag = ("Unknown tool: " ++ name, ag) := by
    simp [executeTool, h1, h2, h3, h4, h5, h6, h7]
  refine ⟨hex, ?_⟩
  intro st tc rest hname hargs hag
  rw [processCalls, jsonLoadsObj_eq_some tc.arguments args hargs]
  simp only [executeToolJson, hname, hag, hex, unknown_not_sentinel, Bool.false_eq_true, if_false]

theorem C8_witness :
    executeTool ⟨fun _ _ _ _ => TermResult.ok 0 "" "", fun _ _ => "", ""⟩ "fetch_url" []
        ⟨⟨[], []⟩, [], []⟩ = ("Unknown tool: fetch_url", ⟨⟨[], []⟩, [], []⟩) ∧
    processCalls ⟨fun _ _ _ _ => TermResult.ok 0 "" "", fun _ _ => "", ""⟩
        ⟨[], ⟨⟨[], []⟩, [], []⟩, false, PyJson.obj []⟩ [⟨"id1", "fetch_url", "\x7b\x7d"⟩] =
      PCRes.ok ⟨[Turn.tool "id1" "Unknown tool: fetch_url"], ⟨⟨[], []⟩, [], []⟩, false,
        PyJson.obj []⟩ := by
  obtain ⟨he, hp⟩ := C8_unknown_tool ⟨fun _ _ _ _ => TermResult.ok 0 "" "", fun _ _ => "", ""⟩
    "fetch_url" [] ⟨⟨[], []⟩, [], []⟩ (by decide) (by decide) (by decide) (by decide)
    (by decide) (by decide) (by decide)
  refine ⟨he, ?_⟩
  rw [hp ⟨[], ⟨⟨[], []⟩, [], []⟩, false, PyJson.obj []⟩ ⟨"id1", "fetch_url", "\x7b\x7d"⟩ []
    rfl rfl rfl]
  rfl

/-! ## Lemmas: loop invariants -/

theorem stepIter_iteration (maxIter : Nat) (env : Env) (script : Nat → ModelResponse)
    (s : RunState) :
    (stepState (stepIter maxIter env script s)).iteration = s.iteration + 1 := by
  unfold stepIter
  cases h : script s.iteration with
  | raise m => rfl
  | reply content calls =>
    by_cases hc : calls.isEmpty
    · simp only [hc, if_true]
      split
      · rfl
      · split <;> rfl
    · simp only [hc, Bool.false_eq_true, if_false]
      split <;> rfl

theorem loopGo_complete (maxIter : Nat) (env : Env) (script : Nat → ModelResponse)
    (fuel : Nat) (s : RunState) (h : s.taskComplete = true) :
    loopGo maxIter env script fuel s = (s, LoopExit.normal) := by
  cases fuel with
  | zero => rfl
  | succ fuel => simp [loopGo, h]

theorem loopGo_iteration_le (maxIter : Nat) (env : Env) (script : Nat → ModelResponse)
    (fuel : Nat) (s : RunState) :
    (loopGo maxIter env script fuel s).1.iteration ≤ s.iteration + fuel := by
  induction fuel generalizing s with
  | zero => simp [loopGo]
  | succ fuel ih =>
    by_cases h : s.taskComplete = true
    · rw [loopGo_complete maxIter env script _ s h]
      simp
    · cases hs : stepIter maxIter env script s with
      | cont s2 =>
        have hgo : loopGo maxIter env script (fuel + 1) s = loopGo maxIter env script fuel s2 := by
          rw [loopGo, if_neg (by simp [h]), hs]
        have hit : s2.iteration = s.iteration + 1 := by
          have := stepIter_iteration maxIter env script s
          rw [hs] at this
          exact this
        rw [hgo]
        have := ih s2
        omega
      | clarify s2 =>
        have hgo : loopGo maxIter env script (fuel + 1) s = (s2, LoopExit.clarify) := by
          rw [loopGo, if_neg (by simp [h]), hs]
        have hit : s2.iteration = s.iteration + 1 := by
          have := stepIter_iteration maxIter env script s
          rw [hs] at this
          exact this
        rw [hgo]
        simp
        omega
      | noTools s2 =>
        have hgo : loopGo maxIter env script (fuel + 1) s = (s2, LoopExit.noTools) := by
          rw [loopGo, if_neg (by simp [h]), hs]
        have hit : s2.iteration = s.iteration + 1 := by
          have := stepIter_iteration maxIter env script s
          rw [hs] at this
          exact this
        rw [hgo]
        simp
        omega
      | err s2 m =>
        have hgo : loopGo maxIter env script (fuel + 1) s = (s2, LoopExit.errorStop m) := by
          rw [loopGo, if_neg (by simp [h]), hs]
        have hit : s2.iteration = s.iteration + 1 := by
          have := stepIter_iteration maxIter env script s
          rw [hs] at this
          exact this
        rw [hgo]
        simp
        omega

theorem loopGo_normal_exhaust (maxIter : Nat) (env : Env) (script : Nat → ModelResponse)
    (fuel : Nat) (s s' : RunState)
    (h : loopGo maxIter env script fuel s = (s', LoopExit.normal))
    (hc : s'.taskComplete = false) :
    s'.iteration = s.iteration + fuel := by
  induction fuel generalizing s with
  | zero =>
    simp [loopGo] at h
    subst h
    simp
  | succ fuel ih =>
    by_cases ht : s.taskComplete = true
    · rw [loopGo_complete maxIter env script _ s ht] at h
      cases h
      rw [ht] at hc
      cases hc
    · cases hs : stepIter maxIter env script s with
      | cont s2 =>
        have hgo : loopGo maxIter env script (fuel + 1) s = loopGo maxIter env script fuel s2 := by
          rw [loopGo, if_neg (by simp [ht]), hs]
        rw [hgo] at h
        have hit : s2.iteration = s.iteration + 1 := by
          have := stepIter_iteration maxIter env script s
          rw [hs] at this
          exact this
        have := ih s2 h
        omega
      | clarify s2 =>
        rw [loopGo, if_neg (by simp [ht]), hs] at h
        cases h
      | noTools s2 =>
        rw [loopGo, if_neg (by simp [ht]), hs] at h
        cases h
      | err s2 m =>
        rw [loopGo, if_neg (by simp [ht]), hs] at h
        cases h

theorem stepIter_noTools_ge (maxIter : Nat) (env : Env) (script : Nat → ModelResponse)
    (s s' : RunState) (h : stepIter maxIter env script s = StepRes.noTools s') :
    maxIter ≤ s'.iteration := by
  unfold stepIter at h
  cases hr : script s.iteration with
  | raise m => rw [hr] at h; cases h
  | reply content calls =>
    rw [hr] at h
    dsimp only at h
    by_cases hc : calls.isEmpty
    · rw [if_pos hc] at h
      by_cases h1 : (s.iteration + 1 == 1 && contentTruthy content) = true
      · rw [if_pos h1] at h
        cases h
      · rw [if_neg h1] at h
        by_cases h2 : s.iteration + 1 < maxIter
        · rw [if_pos h2] at h
          cases h
        · rw [if_neg h2] at h
          cases h
          simp
          omega
    · rw [if_neg hc] at h
      cases hpc : processCalls env
          { history := s.hist ++ [Turn.assistant content (if calls.isEmpty then none else some calls)],
            ag := s.ag, taskComplete := s.taskComplete, completionInfo := s.completionInfo } calls with
      | ok st => rw [hpc] at h; cases h
      | err st m => rw [hpc] at h; cases h

theorem loopGo_noTools_ge (maxIter : Nat) (env : Env) (script : Nat → ModelResponse)
    (fuel : Nat) (s s' : RunState)
    (h : loopGo maxIter env script fuel s = (s', LoopExit.noTools)) :
    maxIter ≤ s'.iteration := by
  induction fuel generalizing s with
  | zero => simp [loopGo] at h
  | succ fuel ih =>
    by_cases ht : s.taskComplete = true
    · rw [loopGo_complete maxIter env script _ s ht] at h
      cases h
    · cases hs : stepIter maxIter env script s with
      | cont s2 =>
        rw [loopGo, if_neg (by simp [ht]), hs] at h
        exact ih s2 h
      | clarify s2 =>
        rw [loopGo, if_neg (by simp [ht]), hs] at h
        cases h
      | noTools s2 =>
        rw [loopGo, if_neg (by simp [ht]), hs] at h
        cases h
        exact stepIter_noTools_ge maxIter env script s _ hs
      | err s2 m =>
        rw [loopGo, if_neg (by simp [ht]), hs] at h
        cases h

theorem histHasSentinel_append (h l : List Turn) :
    histHasSentinel (h ++ l) = (histHasSentinel h || histHasSentinel l) := by
  simp [histHasSentinel, List.any_append]

theorem processCalls_sentinel_inv (env : Env) (calls : List ToolCall) (st st' : IterState)
    (hok : processCalls env st calls = PCRes.ok st')
    (hinv : st.taskComplete = true → histHasSentinel st.history = true) :
    st'.taskComplete = true → histHasSentinel st'.history = true := by
  induction calls generalizing st with
  | nil =>
    simp [processCalls] at hok
    subst hok
    exact hinv
  | cons tc rest ih =>
    rw [processCalls] at hok
    cases hj : jsonLoads tc.arguments with
    | none => rw [hj] at hok; cases hok
    | some j =>
      rw [hj] at hok
      dsimp only at hok
      cases hr : executeToolJson env tc.name j st.ag with
      | none => rw [hr] at hok; cases hok
      | some r =>
        rw [hr] at hok
        dsimp only at hok
        by_cases hs : pyStartsWith r.1 sentinel = true
        · rw [if_pos hs] at hok
          cases hinfo : jsonLoads (pyReplace r.1 sentinel "") with
          | none => rw [hinfo] at hok; cases hok
          | some info =>
            rw [hinfo] at hok
            refine ih _ hok ?_
            intro _
            rw [histHasSentinel_append]
            simp [histHasSentinel, turnHasSentinel, hs]
        · rw [if_neg hs] at hok
          refine ih _ hok ?_
          intro hc
          rw [histHasSentinel_append]
          simp only [Bool.or_eq_true]
          exact Or.inl (hinv hc)

theorem processCalls_keeps_complete (env : Env) (calls : List ToolCall) (st st' : IterState)
    (hok : processCalls env st calls = PCRes.ok st')
    (hc : st.taskComplete = true) :
    st'.taskComplete = true := by
  induction calls generalizing st with
  | nil =>
    simp [processCalls] at hok
    subst hok
    exact hc
  | cons tc rest ih =>
    rw [processCalls] at hok
    cases hj : jsonLoads tc.arguments with
    | none => rw [hj] at hok; cases hok
    | some j =>
      rw [hj] at hok
      dsimp only at hok
      cases hr : executeToolJson env tc.name j st.ag with
      | none => rw [hr] at hok; cases hok
      | some r =>
        rw [hr] at hok
        dsimp only at hok
        by_cases hs : pyStartsWith r.1 sentinel = true
        · rw [if_pos hs] at hok
          cases hinfo : jsonLoads (pyReplace r.1 sentinel "") with
          | none => rw [hinfo] at hok; cases hok
          | some info =>
            rw [hinfo] at hok
            exact ih _ hok rfl
        · rw [if_neg hs] at hok
          exact ih _ hok hc

theorem stepIter_cont_inv (maxIter : Nat) (env : Env) (script : Nat → ModelResponse)
    (s s' : RunState) (h : stepIter maxIter env script s = StepRes.cont s')
    (hinv : s.taskComplete = true → histHasSentinel s.hist = true) :
    s'.taskComplete = true → histHasSentinel s'.hist = true := by
  unfold stepIter at h
  cases hr : script s.iteration with
  | raise m => rw [hr] at h; cases h
  | reply content calls =>
    rw [hr] at h
    dsimp only at h
    by_cases hc : calls.isEmpty
    · rw [if_pos hc] at h
      by_cases h1 : (s.iteration + 1 == 1 && contentTruthy content) = true
      · rw [if_pos h1] at h; cases h
      · rw [if_neg h1] at h
        by_cases h2 : s.iteration + 1 < maxIter
        · rw [if_pos h2] at h
          cases h
          intro hcpl
          simp only at hcpl
          rw [histHasSentinel_append, histHasSentinel_append]
          simp only [Bool.or_eq_true]
          exact Or.inl (Or.inl (hinv hcpl))
        · rw [if_neg h2] at h; cases h
    · rw [if_neg hc] at h
      cases hpc : processCalls env
          { history := s.hist ++ [Turn.assistant content (if calls.isEmpty = true then none else some calls)],
            ag := s.ag, taskComplete := s.taskComplete, completionInfo := s.completionInfo } calls with
      | ok st =>
        rw [hpc] at h
        cases h
        intro hcpl
        simp only at hcpl
        have := processCalls_sentinel_inv env calls _ st hpc (by
          intro hc2
          simp only at hc2 ⊢
          rw [histHasSentinel_append]
          simp only [Bool.or_eq_true]
          exact Or.inl (hinv hc2))
        exact this hcpl
      | err st m => rw [hpc] at h; cases h

theorem loopGo_normal_inv (maxIter : Nat) (env : Env) (script : Nat → ModelResponse)
    (fuel : Nat) (s s' : RunState) (ex : LoopExit)
    (h : loopGo maxIter env script fuel s = (s', ex))
    (hinv : s.taskComplete = true → histHasSentinel s.hist = true)
    (hex : ex = LoopExit.normal ∨ ex = LoopExit.noTools) :
    s'.taskComplete = true → histHasSentinel s'.hist = true := by
  induction fuel generalizing s with
  | zero =>
    simp [loopGo] at h
    rw [← h.1]
    exact hinv
  | succ fuel ih =>
    by_cases ht : s.taskComplete = true
    · rw [loopGo_complete maxIter env script _ s ht] at h
      cases h
      exact hinv
    · cases hs : stepIter maxIter env script s with
      | cont s2 =>
        rw [loopGo, if_neg (by simp [ht]), hs] at h
        exact ih s2 h (stepIter_cont_inv maxIter env script s s2 hs hinv)
      | clarify s2 =>
        rw [loopGo, if_neg (by simp [ht]), hs] at h
        cases h
        cases hex with
        | inl hx => cases hx
        | inr hx => cases hx
      | noTools s2 =>
        rw [loopGo, if_neg (by simp [ht]), hs] at h
        cases h
        -- a noTools step never sets taskComplete
        unfold stepIter at hs
        cases hr : script s.iteration with
        | raise m => rw [hr] at hs; cases hs
        | reply content calls =>
          rw [hr] at hs
          dsimp only at hs
          by_cases hc : calls.isEmpty
          · rw [if_pos hc] at hs
            by_cases h1 : (s.iteration + 1 == 1 && contentTruthy content) = true
            · rw [if_pos h1] at hs; cases hs
            · rw [if_neg h1] at hs
              by_cases h2 : s.iteration + 1 < maxIter
              · rw [if_pos h2] at hs; cases hs
              · rw [if_neg h2] at hs
                cases hs
                intro hcpl
                simp only at hcpl
                rw [histHasSentinel_append, histHasSentinel_append]
                simp only [Bool.or_eq_true]
                exact Or.inl (Or.inl (hinv hcpl))
          · rw [if_neg hc] at hs
            cases hpc : processCalls env
                { history := s.hist ++ [Turn.assistant content (if calls.isEmpty = true then none else some calls)],
                  ag := s.ag, taskComplete := s.taskComplete, completionInfo := s.completionInfo } calls with
            | ok st => rw [hpc] at hs; cases hs
            | err st m => rw [hpc] at hs; cases hs
      | err s2 m =>
        rw [loopGo, if_neg (by simp [ht]), hs] at h
        cases h
        cases hex with
        | inl hx => cases hx
        | inr hx => cases hx

theorem processCalls_ok_hist (env : Env) (calls : List ToolCall) (st st' : IterState)
    (hok : processCalls env st calls = PCRes.ok st') :
    ∃ rs : List String, rs.length = calls.length ∧
      st'.history = st.history ++ List.zipWith (fun tc r => Turn.tool tc.id r) calls rs := by
  induction calls generalizing st with
  | nil =>
    simp [processCalls] at hok
    subst hok
    exact ⟨[], rfl, by simp⟩
  | cons tc rest ih =>
    rw [processCalls] at hok
    cases hj : jsonLoads tc.arguments with
    | none => rw [hj] at hok; cases hok
    | some j =>
      rw [hj] at hok
      dsimp only at hok
      cases hr : executeToolJson env tc.name j st.ag with
      | none => rw [hr] at hok; cases hok
      | some r =>
        rw [hr] at hok
        dsimp only at hok
        by_cases hs : pyStartsWith r.1 sentinel = true
        · rw [if_pos hs] at hok
          cases hinfo : jsonLoads (pyReplace r.1 sentinel "") with
          | none => rw [hinfo] at hok; cases hok
          | some info =>
            rw [hinfo] at hok
            obtain ⟨rs, hlen, hhist⟩ := ih _ hok
            refine ⟨r.1 :: rs, by simp [hlen], ?_⟩
            rw [hhist]
            simp
        · rw [if_neg hs] at hok
          obtain ⟨rs, hlen, hhist⟩ := ih _ hok
          refine ⟨r.1 :: rs, by simp [hlen], ?_⟩
          rw [hhist]
          simp

theorem executeTool_counts (env : Env) (name : String) (args : ArgMap) (ag : AgentState) :
    (executeTool env name args ag).2.filesCreated =
      ag.filesCreated ++ (if name = "create_file" then [argGet args "file_path"] else []) ∧
    (executeTool env name args ag).2.commandsExecuted =
      ag.commandsExecuted ++ (if name = "execute_command" then [argGet args "command"] else []) := by
  by_cases h1 : name = "execute_command"
  · subst h1; simp [executeTool]
  by_cases h2 : name = "create_file"
  · subst h2
    cases hf : argGet args "file_path" <;> cases hc : argGet args "content" <;>
      simp [executeTool, hf, hc]
  by_cases h3 : name = "read_file"
  · subst h3
    cases hf : argGet args "file_path" <;> simp [executeTool, hf]
  by_cases h4 : name = "create_directory"
  · subst h4
    cases hf : argGet args "directory_path" <;> simp [executeTool, hf]
  by_cases h5 : name = "list_directory"
  · subst h5
    cases hf : argGet args "directory_path" <;> simp [executeTool, hf]
  by_cases h6 : name = "check_browser_console"
  · subst h6; simp [executeTool]
  by_cases h7 : name = "task_complete"
  · subst h7; simp [executeTool]
  · simp [executeTool, h1, h2, h3, h4, h5, h6, h7]

theorem executeToolJson_counts (env : Env) (name : String) (j : PyJson) (ag : AgentState)
    (r : String × AgentState) (h : executeToolJson env name j ag = some r) :
    r.2.filesCreated.length =
      ag.filesCreated.length + (if name = "create_file" then 1 else 0) ∧
    r.2.commandsExecuted.length =
      ag.commandsExecuted.length + (if name = "execute_command" then 1 else 0) := by
  cases j with
  | obj m =>
    simp only [executeToolJson, Option.some.injEq] at h
    subst h
    obtain ⟨h1, h2⟩ := executeTool_counts env name m ag
    constructor
    · rw [h1]; by_cases hn : name = "create_file" <;> simp [hn]
    · rw [h2]; by_cases hn : name = "execute_command" <;> simp [hn]
  | val v =>
    unfold executeToolJson at h
    dsimp only at h
    by_cases hbad : name = "create_file" ∨ name = "execute_command" ∨ name = "read_file" ∨
        name = "create_directory" ∨ name = "list_directory" ∨ name = "check_browser_console"
    · rw [if_pos hbad] at h; cases h
    · rw [if_neg hbad] at h
      push_neg at hbad
      obtain ⟨hb1, hb2, _⟩ := hbad
      by_cases ht : name = "task_complete"
      · rw [if_pos ht] at h
        cases h
        simp [hb1, hb2]
      · rw [if_neg ht] at h
        cases h
        simp [hb1, hb2]

theorem processCalls_counts (env : Env) (calls : List ToolCall) (st st' : IterState)
    (hok : processCalls env st calls = PCRes.ok st') :
    st'.ag.filesCreated.length =
      st.ag.filesCreated.length + calls.countP (fun tc => tc.name == "create_file") ∧
    st'.ag.commandsExecuted.length =
      st.ag.commandsExecuted.length + calls.countP (fun tc => tc.name == "execute_command") := by
  induction calls generalizing st with
  | nil =>
    simp [processCalls] at hok
    subst hok
    simp
  | cons tc rest ih =>
    rw [processCalls] at hok
    cases hj : jsonLoads tc.arguments with
    | none => rw [hj] at hok; cases hok
    | some j =>
      rw [hj] at hok
      dsimp only at hok
      cases hr : executeToolJson env tc.name j st.ag with
      | none => rw [hr] at hok; cases hok
      | some r =>
        rw [hr] at hok
        dsimp only at hok
        obtain ⟨hct1, hct2⟩ := executeToolJson_counts env tc.name j st.ag r hr
        by_cases hs : pyStartsWith r.1 sentinel = true
        · rw [if_pos hs] at hok
          cases hinfo : jsonLoads (pyReplace r.1 sentinel "") with
          | none => rw [hinfo] at hok; cases hok
          | some info =>
            rw [hinfo] at hok
            obtain ⟨ih1, ih2⟩ := ih _ hok
            constructor
            · rw [ih1]
              simp only [hct1, List.countP_cons]
              by_cases hn : tc.name = "create_file" <;> simp [hn] <;> omega
            · rw [ih2]
              simp only [hct2, List.countP_cons]
              by_cases hn : tc.name = "execute_command" <;> simp [hn] <;> omega
        · rw [if_neg hs] at hok
          obtain ⟨ih1, ih2⟩ := ih _ hok
          constructor
          · rw [ih1]
            simp only [hct1, List.countP_cons]
            by_cases hn : tc.name = "create_file" <;> simp [hn] <;> omega
          · rw [ih2]
            simp only [hct2, List.countP_cons]
            by_cases hn : tc.name = "execute_command" <;> simp [hn] <;> omega

theorem finalizeRun_normal_ok (maxIter : Nat) (env : Env) (task : String) (s : RunState)
    (out : RunOutcome)
    (h : finalizeRun maxIter env task (s, LoopExit.normal) = Except.ok out) :
    ∃ psid ci, s.completionInfo = PyJson.obj ci ∧ out = mkNormalOutcome maxIter s psid ci := by
  unfold finalizeRun at h
  dsimp only at h
  by_cases htc : s.taskComplete = true
  · rw [if_pos htc] at h
    cases hci : s.completionInfo with
    | val v => rw [hci] at h; simp at h
    | obj ci =>
      rw [hci] at h
      dsimp only at h
      by_cases hg : jvalTruthy (argGet ci "project_path") = true
      · rw [if_pos hg] at h
        cases hpp : argGet ci "project_path" with
        | str p =>
          rw [hpp] at h
          exact ⟨_, ci, rfl, by simpa using h.symm⟩
        | bool b => rw [hpp] at h; simp at h
        | null => rw [hpp] at h; simp at h
      · rw [if_neg hg] at h
        exact ⟨s.psid, ci, rfl, by simpa using h.symm⟩
  · rw [if_neg htc] at h
    cases hci : s.completionInfo with
    | val v => rw [hci] at h; simp at h
    | obj ci =>
      rw [hci] at h
      exact ⟨s.psid, ci, rfl, by simpa using h.symm⟩

theorem finalizeRun_ok_cases (maxIter : Nat) (env : Env) (task : String) (s : RunState)
    (ex : LoopExit) (out : RunOutcome)
    (h : finalizeRun maxIter env task (s, ex) = Except.ok out) :
    (∃ m, ex = LoopExit.errorStop m ∧ out = mkErrorOutcome s m) ∨
    ((∀ m, ex ≠ LoopExit.errorStop m) ∧
      ∃ psid ci, s.completionInfo = PyJson.obj ci ∧
        out = mkNormalOutcome maxIter s psid ci) := by
  cases ex with
  | errorStop m =>
    left
    refine ⟨m, rfl, ?_⟩
    unfold finalizeRun at h
    simpa using h.symm
  | normal =>
    exact Or.inr ⟨by simp, finalizeRun_normal_ok maxIter env task s out h⟩
  | clarify =>
    exact Or.inr ⟨by simp, finalizeRun_normal_ok maxIter env task s out h⟩
  | noTools =>
    exact Or.inr ⟨by simp, finalizeRun_normal_ok maxIter env task s out h⟩

/-- C1 (amended): every outcome's iteration count is at most
`max_iterations`; and a run in which no executed tool result carries the
completion sentinel and that does not end through the iteration-1
clarifying-question exit or the exception handler reports
`max_iterations_reached = true` and `success = false`. -/
theorem C1_iteration_bound (maxIter : Nat) (env : Env) (script : Nat → ModelResponse)
    (task : String) (cs : Bool) (psid0 : Option String) (store0 : SessionStore) (fs0 : FS) :
    (∀ out, executeAutonomousTask maxIter env script task cs psid0 store0 fs0 = Except.ok out →
      out.iterations ≤ maxIter) ∧
    (∀ s' ex, runAgentLoop maxIter env script task cs psid0 store0 fs0 = (s', ex) →
      (ex = LoopExit.normal ∨ ex = LoopExit.noTools) →
      histHasSentinel s'.hist = false →
      ∀ out, executeAutonomousTask maxIter env script task cs psid0 store0 fs0 = Except.ok out →
        out.max_iterations_reached = some true ∧ out.success = false) := by
  have hloop : runAgentLoop maxIter env script task cs psid0 store0 fs0 =
      loopGo maxIter env script maxIter (initialRunState task cs psid0 store0 fs0) := rfl
  constructor
  · intro out hout
    unfold executeAutonomousTask at hout
    rcases hr : runAgentLoop maxIter env script task cs psid0 store0 fs0 with ⟨s', ex⟩
    rw [hr] at hout
    have hle : s'.iteration ≤ maxIter := by
      have hb := loopGo_iteration_le maxIter env script maxIter
        (initialRunState task cs psid0 store0 fs0)
      rw [← hloop, hr] at hb
      simpa [initialRunState] using hb
    rcases finalizeRun_ok_cases maxIter env task s' ex out hout with
      ⟨m, _, rfl⟩ | ⟨_, psid, ci, _, rfl⟩
    · exact hle
    · exact hle
  · intro s' ex hr hex hfree out hout
    have hinv0 : (initialRunState task cs psid0 store0 fs0).taskComplete = true →
        histHasSentinel (initialRunState task cs psid0 store0 fs0).hist = true := by
      simp [initialRunState]
    have hnc : s'.taskComplete = false := by
      have := loopGo_normal_inv maxIter env script maxIter
        (initialRunState task cs psid0 store0 fs0) s' ex (by rw [← hloop]; exact hr) hinv0 hex
      cases hc : s'.taskComplete with
      | false => rfl
      | true => rw [this hc] at hfree; cases hfree
    have hge : maxIter ≤ s'.iteration := by
      cases hex with
      | inl hx =>
        subst hx
        have := loopGo_normal_exhaust maxIter env script maxIter
          (initialRunState task cs psid0 store0 fs0) s' (by rw [← hloop]; exact hr) hnc
        simp [initialRunState] at this
        omega
      | inr hx =>
        subst hx
        exact loopGo_noTools_ge maxIter env script maxIter
          (initialRunState task cs psid0 store0 fs0) s' (by rw [← hloop]; exact hr)
    unfold executeAutonomousTask at hout
    rw [hr] at hout
    rcases finalizeRun_ok_cases maxIter env task s' ex out hout with
      ⟨m, hm, rfl⟩ | ⟨_, psid, ci, _, rfl⟩
    · rcases hex with hx | hx <;> (rw [hm] at hx; cases hx)
    · constructor
      · simp [mkNormalOutcome]
        omega
      · simp [mkNormalOutcome, hnc]

theorem C1_counterexample :
    ∃ out, executeAutonomousTask 5 sampleEnv (fun _ => ModelResponse.reply (some "Which framework?") [])
        "build an app" false none [] ⟨[], []⟩ = Except.ok out ∧
      histHasSentinel (runAgentLoop 5 sampleEnv (fun _ => ModelResponse.reply (some "Which framework?") [])
        "build an app" false none [] ⟨[], []⟩).1.hist = false ∧
      out.max_iterations_reached = some false ∧
      out.success = false := by
  refine ⟨_, rfl, by decide, by decide, by decide⟩

theorem C1_witness :
    ∃ out, executeAutonomousTask 1 sampleEnv
        (fun _ => ModelResponse.reply none [⟨"c1", "read_file", "\x7b\"file_path\": \"nope\"\x7d"⟩])
        "t" false none [] ⟨[], []⟩ = Except.ok out ∧
      out.iterations ≤ 1 ∧
      out.max_iterations_reached = some true ∧
      out.success = false := by
  obtain ⟨h1, h2⟩ := C1_iteration_bound 1 sampleEnv
    (fun _ => ModelResponse.reply none [⟨"c1", "read_file", "\x7b\"file_path\": \"nope\"\x7d"⟩])
    "t" false none [] ⟨[], []⟩
  refine ⟨_, rfl, h1 _ rfl, ?_⟩
  exact h2 _ _ rfl (Or.inl (by decide)) (by decide) _ rfl

/-- C2 (amended): provided the captured completion payload is a dict
(otherwise `completion_info.get` at line 536 — outside any `try` — raises
an uncaught `AttributeError` past the loop boundary, e.g. after a
`task_complete` call whose argument string is `"true"`), and provided that
dict's truthy `project_path` is a string (otherwise the post-loop
`Path(...)` call raises an uncaught `TypeError`), a run returns a Run
Outcome dict and no exception passes the loop boundary — but the two
return sites carry different key sets: the normal return has every Run
Outcome field except `error`, the exception return only
`{success, error, iterations, session_id}`; a completion-service exception
stops the loop immediately with `success = false` and the error
captured. -/
theorem C2_outcome_shape (maxIter : Nat) (env : Env) (script : Nat → ModelResponse)
    (task : String) (cs : Bool) (psid0 : Option String) (store0 : SessionStore) (fs0 : FS)
    (hdict : pyJsonIsObj
      (runAgentLoop maxIter env script task cs psid0 store0 fs0).1.completionInfo = true)
    (hpp : ∀ ci, (runAgentLoop maxIter env script task cs psid0 store0 fs0).1.completionInfo =
        PyJson.obj ci →
      jvalTruthy (argGet ci "project_path") = true →
      ∃ p, argGet ci "project_path" = JVal.str p) :
    (∃ out, executeAutonomousTask maxIter env script task cs psid0 store0 fs0 = Except.ok out ∧
      ((out.error = none ∧ out.summary.isSome ∧ out.project_path.isSome ∧
        out.max_iterations_reached.isSome ∧ out.session_id.isSome ∧
        out.files_created.isSome ∧ out.commands_executed.isSome) ∨
       (∃ m, out.error = some m ∧ out.success = false ∧ out.summary = none ∧
        out.project_path = none ∧ out.max_iterations_reached = none ∧
        out.files_created = none ∧ out.commands_executed = none ∧ out.session_id.isSome))) ∧
    (∀ s' msg, runAgentLoop maxIter env script task cs psid0 store0 fs0 =
        (s', LoopExit.errorStop msg) →
      ∀ out, executeAutonomousTask maxIter env script task cs psid0 store0 fs0 = Except.ok out →
        out.success = false ∧ out.error = some msg ∧ out.iterations = s'.iteration) ∧
    (∀ (fuel : Nat) (s : RunState) (msg : String),
      s.taskComplete = false → script s.iteration = ModelResponse.raise msg →
      loopGo maxIter env script (fuel + 1) s =
        ({ s with iteration := s.iteration + 1 }, LoopExit.errorStop msg)) := by
  refine ⟨?_, ?_, ?_⟩
  · rcases hr : runAgentLoop maxIter env script task cs psid0 store0 fs0 with ⟨s', ex⟩
    rw [hr] at hdict hpp
    obtain ⟨ci, hci⟩ : ∃ ci, s'.completionInfo = PyJson.obj ci := by
      cases hc : s'.completionInfo with
      | obj m => exact ⟨m, rfl⟩
      | val v => rw [hc] at hdict; cases hdict
    have hfin : ∃ out, finalizeRun maxIter env task (s', ex) = Except.ok out := by
      cases ex
      case errorStop m => exact ⟨_, rfl⟩
      all_goals (
        unfold finalizeRun
        dsimp only
        by_cases htc : s'.taskComplete = true
        · rw [if_pos htc, hci]
          dsimp only
          by_cases hg : jvalTruthy (argGet ci "project_path") = true
          · obtain ⟨p, hp⟩ := hpp ci hci hg
            rw [if_pos hg, hp]
            exact ⟨_, rfl⟩
          · rw [if_neg hg]
            exact ⟨_, rfl⟩
        · rw [if_neg htc, hci]
          exact ⟨_, rfl⟩)
    obtain ⟨out, hout⟩ := hfin
    have houtx : executeAutonomousTask maxIter env script task cs psid0 store0 fs0 =
        Except.ok out := by
      show finalizeRun maxIter env task (runAgentLoop maxIter env script task cs psid0 store0 fs0) =
        Except.ok out
      rw [hr]
      exact hout
    refine ⟨out, houtx, ?_⟩
    rcases finalizeRun_ok_cases maxIter env task s' ex out hout with
      ⟨m, hm, rfl⟩ | ⟨hne, psid, ci2, hci2, rfl⟩
    · exact Or.inr ⟨m, by simp [mkErrorOutcome]⟩
    · exact Or.inl (by simp [mkNormalOutcome])
  · intro s' msg hr out hout
    unfold executeAutonomousTask at hout
    rw [hr] at hout
    have : out = mkErrorOutcome s' msg := by
      unfold finalizeRun at hout
      simpa using hout.symm
    subst this
    exact ⟨rfl, rfl, rfl⟩
  · intro fuel s msg hc hraise
    rw [loopGo, if_neg (by simp [hc])]
    have : stepIter maxIter env script s =
        StepRes.err { s with iteration := s.iteration + 1 } msg := by
      unfold stepIter
      rw [hraise]
    rw [this]

set_option maxRecDepth 8192 in
theorem C2_counterexample :
    (∃ out, executeAutonomousTask 5 sampleEnv (fun _ => ModelResponse.raise "AuthenticationError")
        "t" false none [] ⟨[], []⟩ = Except.ok out ∧
      out.error = some "AuthenticationError" ∧ out.success = false ∧
      out.summary = none ∧ out.project_path = none ∧ out.max_iterations_reached = none ∧
      out.files_created = none ∧ out.commands_executed = none) ∧
    executeAutonomousTask 5 sampleEnv
        (fun _ => ModelResponse.reply none [⟨"c1", "task_complete", "true"⟩])
        "t" false none [] ⟨[], []⟩ = Except.error completionAttrError := by
  refine ⟨⟨_, rfl, by decide, by decide, by decide, by decide, by decide, by decide, by decide⟩,
    ?_⟩
  rfl

set_option maxRecDepth 8192 in
theorem C2_witness :
    ∃ out, executeAutonomousTask 5 sampleEnv (fun _ => ModelResponse.raise "RateLimitError")
        "t" false none [] ⟨[], []⟩ = Except.ok out ∧
      out.success = false ∧ out.error = some "RateLimitError" ∧ out.iterations = 1 := by
  obtain ⟨h1, h2, h3⟩ := C2_outcome_shape 5 sampleEnv (fun _ => ModelResponse.raise "RateLimitError")
    "t" false none [] ⟨[], []⟩ (by decide) (by
      intro ci hci hg
      have he : (runAgentLoop 5 sampleEnv (fun _ => ModelResponse.raise "RateLimitError")
          "t" false none [] ⟨[], []⟩).1.completionInfo = PyJson.obj [] := by decide
      rw [he] at hci
      cases hci
      exact absurd hg (by decide))
  refine ⟨_, rfl, ?_⟩
  exact h2 (runAgentLoop 5 sampleEnv (fun _ => ModelResponse.raise "RateLimitError")
    "t" false none [] ⟨[], []⟩).1 "RateLimitError" (by decide) _ rfl

/-- C3 (amended): a tool call whose argument JSON fails to parse raises
out of the batch into the per-iteration exception handler: the state so
far is kept, no tool-result turn is appended for the failing call, the
loop stops at once with the error, and the caller gets the error-shaped
outcome — the failure is not fed back to the model. -/
theorem C3_bad_arguments (env : Env) (st : IterState) (tc : ToolCall) (rest : List ToolCall)
    (h : jsonLoads tc.arguments = none) :
    processCalls env st (tc :: rest) = PCRes.err st argsJsonError ∧
    (∀ (maxIter : Nat) (script : Nat → ModelResponse) (fuel : Nat) (s s' : RunState) (msg : String),
      s.taskComplete = false →
      stepIter maxIter env script s = StepRes.err s' msg →
      loopGo maxIter env script (fuel + 1) s = (s', LoopExit.errorStop msg)) ∧
    (∀ (maxIter : Nat) (task : String) (s' : RunState) (msg : String),
      finalizeRun maxIter env task (s', LoopExit.errorStop msg) =
        Except.ok (mkErrorOutcome s' msg)) := by
  refine ⟨?_, ?_, ?_⟩
  · rw [processCalls, h]
  · intro maxIter script fuel s s' msg hc hstep
    rw [loopGo, if_neg (by simp [hc]), hstep]
  · intro maxIter task s' msg
    rfl

set_option maxRecDepth 8192 in
theorem C3_counterexample :
    ∃ out, executeAutonomousTask 5 sampleEnv
        (fun _ => ModelResponse.reply none [⟨"c1", "create_file", "not json"⟩])
        "t" false none [] ⟨[], []⟩ = Except.ok out ∧
      out.success = false ∧ out.error = some argsJsonError ∧ out.iterations = 1 ∧
      (runAgentLoop 5 sampleEnv
        (fun _ => ModelResponse.reply none [⟨"c1", "create_file", "not json"⟩])
        "t" false none [] ⟨[], []⟩).1.hist =
        [Turn.system systemPromptText, Turn.user "t",
         Turn.assistant none (some [⟨"c1", "create_file", "not json"⟩])] := by
  refine ⟨_, rfl, by decide, by decide, by decide, by decide⟩

theorem C3_witness :
    processCalls sampleEnv ⟨[], ⟨⟨[], []⟩, [], []⟩, false, PyJson.obj []⟩
        [⟨"c1", "create_file", "not json"⟩] =
      PCRes.err ⟨[], ⟨⟨[], []⟩, [], []⟩, false, PyJson.obj []⟩ argsJsonError ∧
    finalizeRun 5 sampleEnv "t"
        (⟨[], ⟨⟨[], []⟩, [], []⟩, 1, false, PyJson.obj [], none, []⟩,
         LoopExit.errorStop argsJsonError) =
      Except.ok (mkErrorOutcome ⟨[], ⟨⟨[], []⟩, [], []⟩, 1, false, PyJson.obj [], none, []⟩
        argsJsonError) := by
  obtain ⟨p1, p2, p3⟩ := C3_bad_arguments sampleEnv ⟨[], ⟨⟨[], []⟩, [], []⟩, false, PyJson.obj []⟩
    ⟨"c1", "create_file", "not json"⟩ [] (by decide)
  exact ⟨p1, p3 5 "t" _ _⟩

/-- C4 (amended): when a call's result carries the sentinel, the
remaining calls of the batch are still executed and appended — provided
their own processing raises no exception (a later argument-parse failure
aborts the run with an error outcome instead); once `task_complete` is
set no further completion-service call occurs; the captured payload is
the parse of the sentinel result (a later sentinel result in the same
batch would overwrite it). -/
theorem C4_sentinel_stops (env : Env) (st : IterState) (tc : ToolCall) (rest : List ToolCall)
    (args : ArgMap) (info : ArgMap)
    (hargs : jsonLoadsObj tc.arguments = some args)
    (hs : pyStartsWith (executeTool env tc.name args st.ag).1 sentinel = true)
    (hinfo : jsonLoadsObj (pyReplace (executeTool env tc.name args st.ag).1 sentinel "") =
      some info) :
    processCalls env st (tc :: rest) =
      processCalls env
        { history := st.history ++ [Turn.tool tc.id (executeTool env tc.name args st.ag).1],
          ag := (executeTool env tc.name args st.ag).2,
          taskComplete := true, completionInfo := PyJson.obj info } rest ∧
    (∀ st', processCalls env
        { history := st.history ++ [Turn.tool tc.id (executeTool env tc.name args st.ag).1],
          ag := (executeTool env tc.name args st.ag).2,
          taskComplete := true, completionInfo := PyJson.obj info } rest = PCRes.ok st' →
      st'.taskComplete = true ∧
      ∃ rs : List String, rs.length = rest.length ∧
        st'.history = st.history ++ [Turn.tool tc.id (executeTool env tc.name args st.ag).1] ++
          List.zipWith (fun t r => Turn.tool t.id r) rest rs) ∧
    (∀ (maxIter : Nat) (script : Nat → ModelResponse) (fuel : Nat) (s : RunState),
      s.taskComplete = true →
      loopGo maxIter env script fuel s = (s, LoopExit.normal)) := by
  refine ⟨?_, ?_, ?_⟩
  · rw [processCalls, jsonLoadsObj_eq_some tc.arguments args hargs]
    dsimp only [executeToolJson]
    rw [if_pos hs, jsonLoadsObj_eq_some _ info hinfo]
  · intro st' hok
    refine ⟨processCalls_keeps_complete env rest _ st' hok rfl, ?_⟩
    obtain ⟨rs, hlen, hhist⟩ := processCalls_ok_hist env rest _ st' hok
    exact ⟨rs, hlen, by simpa using hhist⟩
  · intro maxIter script fuel s hc
    exact loopGo_complete maxIter env script fuel s hc

set_option maxRecDepth 8192 in
theorem C4_counterexample :
    ∃ out, executeAutonomousTask 5 sampleEnv
        (fun _ => ModelResponse.reply none
          [⟨"c1", "task_complete", "\x7b\"summary\": \"done\"\x7d"⟩, ⟨"c2", "read_file", "?"⟩])
        "t" false none [] ⟨[], []⟩ = Except.ok out ∧
      out.success = false ∧ out.error = some argsJsonError ∧
      ((runAgentLoop 5 sampleEnv
        (fun _ => ModelResponse.reply none
          [⟨"c1", "task_complete", "\x7b\"summary\": \"done\"\x7d"⟩, ⟨"c2", "read_file", "?"⟩])
        "t" false none [] ⟨[], []⟩).1.hist.any (isToolTurnFor "c2")) = false := by
  refine ⟨_, rfl, by decide, by decide, by decide⟩

set_option maxRecDepth 8192 in
theorem C4_witness :
    processCalls sampleEnv ⟨[], ⟨⟨[], []⟩, [], []⟩, false, PyJson.obj []⟩
        [⟨"c1", "task_complete", "\x7b\"summary\": \"done\"\x7d"⟩,
         ⟨"c2", "create_directory", "\x7b\"directory_path\": \"x\"\x7d"⟩] =
      PCRes.ok ⟨[Turn.tool "c1" "TASK_COMPLETE:\x7b\"summary\": \"done\"\x7d",
                 Turn.tool "c2" "Successfully created directory: x"],
                ⟨⟨["x"], []⟩, [], []⟩, true, PyJson.obj [("summary", JVal.str "done")]⟩ ∧
    loopGo 5 sampleEnv (fun _ => ModelResponse.raise "unused") 3
        ⟨[], ⟨⟨[], []⟩, [], []⟩, 2, true, PyJson.obj [("summary", JVal.str "done")], none, []⟩ =
      (⟨[], ⟨⟨[], []⟩, [], []⟩, 2, true, PyJson.obj [("summary", JVal.str "done")], none, []⟩,
       LoopExit.normal) := by
  obtain ⟨p1, p2, p3⟩ := C4_sentinel_stops sampleEnv ⟨[], ⟨⟨[], []⟩, [], []⟩, false, PyJson.obj []⟩
    ⟨"c1", "task_complete", "\x7b\"summary\": \"done\"\x7d"⟩
    [⟨"c2", "create_directory", "\x7b\"directory_path\": \"x\"\x7d"⟩]
    [("summary", JVal.str "done")] [("summary", JVal.str "done")]
    (by decide) (by decide) (by decide)
  refine ⟨?_, p3 5 (fun _ => ModelResponse.raise "unused") 3 _ rfl⟩
  rw [p1]
  rfl

/-- C5: within one assistant turn the calls are dispatched strictly in
the listed order — each call's tool-result turn is appended before the
next call is dispatched (the recursion equation), an all-ok batch leaves
one result turn per call in listed order, and in the
`[create_directory("x"), create_file("x/y.txt", …)]` scenario the
directory exists when the file write happens and both succeed. -/
theorem C5_sequential_order (env : Env) :
    (∀ (calls : List ToolCall) (st st' : IterState),
      processCalls env st calls = PCRes.ok st' →
      ∃ rs : List String, rs.length = calls.length ∧
        st'.history = st.history ++ List.zipWith (fun t r => Turn.tool t.id r) calls rs) ∧
    (∀ (st : IterState) (tc : ToolCall) (rest : List ToolCall) (args : ArgMap),
      jsonLoadsObj tc.arguments = some args →
      pyStartsWith (executeTool env tc.name args st.ag).1 sentinel = false →
      processCalls env st (tc :: rest) =
        processCalls env
          { st with
            history := st.history ++ [Turn.tool tc.id (executeTool env tc.name args st.ag).1],
            ag := (executeTool env tc.name args st.ag).2 } rest) ∧
    ((executeTool sampleEnv "create_directory" [("directory_path", JVal.str "x")]
        ⟨⟨[], []⟩, [], []⟩).2.fs.dirs.contains "x" = true ∧
     processCalls sampleEnv ⟨[], ⟨⟨[], []⟩, [], []⟩, false, PyJson.obj []⟩
        [⟨"d1", "create_directory", "\x7b\"directory_path\": \"x\"\x7d"⟩,
         ⟨"d2", "create_file", "\x7b\"file_path\": \"x/y.txt\", \"content\": \"hello\"\x7d"⟩] =
      PCRes.ok ⟨[Turn.tool "d1" "Successfully created directory: x",
                 Turn.tool "d2" "Successfully created file: x/y.txt"],
                ⟨⟨["x"], [("x/y.txt", "hello")]⟩, [JVal.str "x/y.txt"], []⟩, false,
                PyJson.obj []⟩) := by
  refine ⟨processCalls_ok_hist env, ?_, by decide, by decide⟩
  intro st tc rest args hargs hs
  rw [processCalls, jsonLoadsObj_eq_some tc.arguments args hargs]
  dsimp only [executeToolJson]
  rw [if_neg (by simp [hs])]

theorem C5_witness :
    ∃ rs : List String, rs.length = 2 ∧
      (⟨[Turn.tool "d1" "Successfully created directory: x",
         Turn.tool "d2" "Successfully created file: x/y.txt"],
        ⟨⟨["x"], [("x/y.txt", "hello")]⟩, [JVal.str "x/y.txt"], []⟩, false,
        PyJson.obj []⟩ : IterState).history =
        ([] : List Turn) ++ List.zipWith (fun t r => Turn.tool t.id r)
          [(⟨"d1", "create_directory", "\x7b\"directory_path\": \"x\"\x7d"⟩ : ToolCall),
           ⟨"d2", "create_file", "\x7b\"file_path\": \"x/y.txt\", \"content\": \"hello\"\x7d"⟩] rs := by
  obtain ⟨o1, o2, o3⟩ := C5_sequential_order sampleEnv
  exact o1 [⟨"d1", "create_directory", "\x7b\"directory_path\": \"x\"\x7d"⟩,
      ⟨"d2", "create_file", "\x7b\"file_path\": \"x/y.txt\", \"content\": \"hello\"\x7d"⟩]
    ⟨[], ⟨⟨[], []⟩, [], []⟩, false, PyJson.obj []⟩
    ⟨[Turn.tool "d1" "Successfully created directory: x",
      Turn.tool "d2" "Successfully created file: x/y.txt"],
     ⟨⟨["x"], [("x/y.txt", "hello")]⟩, [JVal.str "x/y.txt"], []⟩, false,
     PyJson.obj []⟩ (by decide)

/-- C9 (amended): the dispatcher logs one entry per `create_file` /
`execute_command` dispatch — at dispatch time, before the action runs, so
duplicates and failing dispatches are counted — and every run that
returns the normal (non-exception) outcome reports exactly the lengths of
those logs; the exception return carries no counts at all. -/
theorem C9_dispatch_counts :
    (∀ (env : Env) (name : String) (args : ArgMap) (ag : AgentState),
      (executeTool env name args ag).2.filesCreated =
        ag.filesCreated ++ (if name = "create_file" then [argGet args "file_path"] else []) ∧
      (executeTool env name args ag).2.commandsExecuted =
        ag.commandsExecuted ++
          (if name = "execute_command" then [argGet args "command"] else [])) ∧
    (∀ (env : Env) (calls : List ToolCall) (st st' : IterState),
      processCalls env st calls = PCRes.ok st' →
      st'.ag.filesCreated.length =
        st.ag.filesCreated.length + calls.countP (fun tc => tc.name == "create_file") ∧
      st'.ag.commandsExecuted.length =
        st.ag.commandsExecuted.length + calls.countP (fun tc => tc.name == "execute_command")) ∧
    (∀ (maxIter : Nat) (env : Env) (script : Nat → ModelResponse) (task : String) (cs : Bool)
        (psid0 : Option String) (store0 : SessionStore) (fs0 : FS) (out : RunOutcome),
      executeAutonomousTask maxIter env script task cs psid0 store0 fs0 = Except.ok out →
      out.error = none →
      out.files_created =
        some (runAgentLoop maxIter env script task cs psid0 store0 fs0).1.ag.filesCreated.length ∧
      out.commands_executed =
        some (runAgentLoop maxIter env script task cs psid0 store0 fs0).1.ag.commandsExecuted.length) := by
  refine ⟨executeTool_counts, processCalls_counts, ?_⟩
  intro maxIter env script task cs psid0 store0 fs0 out hout herr
  unfold executeAutonomousTask at hout
  rcases hr : runAgentLoop maxIter env script task cs psid0 store0 fs0 with ⟨s', ex⟩
  rw [hr] at hout
  rcases finalizeRun_ok_cases maxIter env task s' ex out hout with
    ⟨m, hm, rfl⟩ | ⟨hne, psid, ci, hci, rfl⟩
  · cases herr
  · exact ⟨rfl, rfl⟩

theorem C9_counterexample :
    ∃ out, executeAutonomousTask 5 sampleEnv (fun _ => ModelResponse.raise "boom")
        "t" false none [] ⟨[], []⟩ = Except.ok out ∧
      out.error = some "boom" ∧ out.files_created = none ∧ out.commands_executed = none := by
  refine ⟨_, rfl, by decide, by decide, by decide⟩

set_option maxRecDepth 8192 in
theorem C9_witness :
    ∃ out, executeAutonomousTask 1 sampleEnv
        (fun _ => ModelResponse.reply none
          [⟨"k1", "create_file", "\x7b\"file_path\": null, \"content\": \"x\"\x7d"⟩,
           ⟨"k2", "create_file", "\x7b\"file_path\": \"a.txt\", \"content\": \"b\"\x7d"⟩,
           ⟨"k3", "create_file", "\x7b\"file_path\": \"a.txt\", \"content\": \"b\"\x7d"⟩,
           ⟨"k4", "execute_command", "\x7b\"command\": \"ls\"\x7d"⟩])
        "t" false none [] ⟨[], []⟩ = Except.ok out ∧
      out.files_created = some 3 ∧ out.commands_executed = some 1 := by
  obtain ⟨p1, p2, p3⟩ := C9_dispatch_counts
  have h3 := p3 1 sampleEnv
    (fun _ => ModelResponse.reply none
      [⟨"k1", "create_file", "\x7b\"file_path\": null, \"content\": \"x\"\x7d"⟩,
       ⟨"k2", "create_file", "\x7b\"file_path\": \"a.txt\", \"content\": \"b\"\x7d"⟩,
       ⟨"k3", "create_file", "\x7b\"file_path\": \"a.txt\", \"content\": \"b\"\x7d"⟩,
       ⟨"k4", "execute_command", "\x7b\"command\": \"ls\"\x7d"⟩])
    "t" false none [] ⟨[], []⟩ _ rfl (by decide)
  exact ⟨_, rfl, h3.1.trans (by decide), h3.2.trans (by decide)⟩
